import Mathlib

/-!
# Verification of the handsfree-windows selector / macro / recorder core

A shallow embedding of the selector resolution engine
(`src/handsfree_windows/selectors.py`, `uia.py`), the macro replay engine
(`macro.py`) and the passive recorder state machine (`recorder.py`).

Modelling conventions:

* A UI element (the accessibility tree exposed by the engine) is an
  `Element`: an attribute record plus an ordered list of children.  Element
  identity — `handle` equality in the source — is modelled by the element's
  *position* under the window root: the list of child indices from the root.
  Handles are assumed unique across live elements, which is what the source
  relies on when it compares `int(a.handle) == int(b.handle)`.
* Optional string attributes follow Python truthiness: the source treats
  `None` and `""` identically everywhere it reads attributes (`or None`,
  `if step.name`, `str(info.name or "")`), so an attribute is a plain
  `String` where `""` means "absent".  (The `str(None) = "None"` coincidence
  for a missing `control_type` inside `_match` is not modelled; no claim
  depends on a literal `"None"` attribute value.)
* `pywinauto`'s `child_window(...).wrapper_object()` is an external
  collaborator; per its documented behaviour it resolves to the *unique*
  descendant matching the criteria and raises `ElementNotFoundError` /
  `ElementAmbiguousError` for zero / several matches.  It is modelled by
  `findDescUnique` over the strict descendants of the element.
* Exceptions are `Except` values; `time.sleep` and input injection are
  events in a trace.
-/

set_option maxHeartbeats 1000000

deriving instance DecidableEq for Except

namespace HFW

/-- Attribute record of a live UI element as read by the source
(`element_info.control_type / name / automation_id / class_name`).
`""` encodes an absent (Python-falsy) attribute. -/
structure Attrs where
  control_type : String := ""
  name : String := ""
  auto_id : String := ""
  class_name : String := ""
deriving DecidableEq

/-- A live UI element: its attributes and its ordered children.  This is the
accessibility tree the engine walks. -/
inductive Element where
  | node (attrs : Attrs) (children : List Element)

/-- The attribute record of an element. -/
def Element.attrs : Element → Attrs
  | .node a _ => a

/-- The ordered children of an element (`elem.children()` in the source). -/
def Element.children : Element → List Element
  | .node _ cs => cs

/-- Element at a position (list of child indices) below a root.  Positions
are the model of element identity (unique handles). -/
def subAt : Element → List Nat → Option Element
  | e, [] => some e
  | e, i :: rest =>
    match e.children.get? i with
    | some c => subAt c rest
    | none => none

mutual

/-- All strict descendants of an element, each with its position relative to
the element, in depth-first pre-order.  This is the search space of
`pywinauto`'s `child_window` (criteria searches are not `top_level_only`). -/
def Element.descendants : Element → List (List Nat × Element)
  | .node _ cs => descsAux 0 cs

/-- Descendant enumeration over a child list starting at child index `i`. -/
def descsAux : Nat → List Element → List (List Nat × Element)
  | _, [] => []
  | i, c :: rest =>
    ([i], c) :: ((Element.descendants c).map (fun pe => (i :: pe.1, pe.2)) ++ descsAux (i + 1) rest)

end

/-- Failure of a single target-candidate attempt (one exception inside the
`for t in targets` loop of `resolve_selector`). -/
inductive CandErr where
  | notFound
  | ambiguous
  | pathNoMatch (s : String)
deriving DecidableEq

/-- Model of `child_window(**criteria).wrapper_object()`: the unique strict
descendant whose attributes satisfy `p`; `ElementNotFoundError` /
`ElementAmbiguousError` otherwise. -/
def findDescUnique (e : Element) (p : Attrs → Bool) : Except CandErr (List Nat × Element) :=
  match e.descendants.filter (fun pe => p pe.2.attrs) with
  | [] => .error .notFound
  | [pe] => .ok pe
  | _ :: _ :: _ => .error .ambiguous

/-- One hop of a structural path (`SelectorStep` in `selectors.py`).  All
attribute fields optional (`""` = absent); `index` is the recorded sibling
index. -/
structure SelectorStep where
  control_type : String := ""
  name : String := ""
  auto_id : String := ""
  class_name : String := ""
  index : Option Nat := none
deriving DecidableEq

/-- `selectors._match`: a child matches a step when every *set* step
attribute equals the child's attribute; absent step attributes are
wildcards. -/
def matchStep (s : SelectorStep) (a : Attrs) : Bool :=
  (s.control_type == "" || a.control_type == s.control_type) &&
  (s.auto_id == "" || a.auto_id == s.auto_id) &&
  (s.class_name == "" || a.class_name == s.class_name) &&
  (s.name == "" || a.name == s.name)

/-- The `try` block of the `resolve_selector_path` loop: the
`auto_id+control_type` indexed lookup when both are truthy, else the
`name+control_type` indexed lookup when both are truthy; an exception in
the attempted lookup falls through to the child scan (the single `try`
suppresses the second lookup after a first-lookup failure). -/
def fastLookup (cur : Element) (s : SelectorStep) : Option (List Nat × Element) :=
  if s.auto_id ≠ "" ∧ s.control_type ≠ "" then
    match findDescUnique cur (fun a => a.auto_id == s.auto_id && a.control_type == s.control_type) with
    | .ok pe => some pe
    | .error _ => none
  else if s.name ≠ "" ∧ s.control_type ≠ "" then
    match findDescUnique cur (fun a => a.name == s.name && a.control_type == s.control_type) with
    | .ok pe => some pe
    | .error _ => none
  else none

/-- The children scan of the `resolve_selector_path` loop: enumerate
`children()`, filter by `_match`, raise `LookupError` on zero matches, else
pick `matches[min(index, len(matches)-1)]` (the first match when no index
was recorded), returning the picked child and its child index. -/
def scanStep (cur : Element) (s : SelectorStep) : Except CandErr (Nat × Element) :=
  match (cur.children.enum).filter (fun ic => matchStep s ic.2.attrs) with
  | [] => .error (.pathNoMatch s.name)
  | m :: ms =>
    .ok (match s.index with
         | some i => (m :: ms).getD (min i ms.length) m
         | none => m)

/-- Loop body of `selectors.resolve_selector_path`, recursing over the
remaining steps with the current element and its position: the fast lookup,
then on its failure the child scan; a scan failure fails the whole
candidate. -/
def resolvePathAux : Element → List Nat → List SelectorStep → Except CandErr (List Nat)
  | _, curPos, [] => .ok curPos
  | cur, curPos, s :: rest =>
    match fastLookup cur s with
    | some (p, c) => resolvePathAux c (curPos ++ p) rest
    | none =>
      match scanStep cur s with
      | .error e => .error e
      | .ok (i, c) => resolvePathAux c (curPos ++ [i]) rest

/-- `selectors.resolve_selector_path window_root path`. -/
def resolve_selector_path (window_root : Element) (path : List SelectorStep) : Except CandErr (List Nat) :=
  resolvePathAux window_root [] path

/-- One ranked targeting strategy inside a selector payload (one dict of
`selector["targets"]`).  `""` / `none` encode absent keys; `path := some l`
models a present `"path"` key (possibly `[]`, which is Python-falsy). -/
structure Target where
  auto_id : String := ""
  name : String := ""
  control_type : String := ""
  class_name : String := ""
  path : Option (List SelectorStep) := none
deriving DecidableEq

/-- Outcome of one iteration of the candidate loop in
`uia.resolve_selector`: success, a caught exception (updates `last_err`), or
a fall-through with no truthy strategy key (no attempt, `last_err`
untouched). -/
inductive CandResult where
  | ok (pos : List Nat)
  | failed (e : CandErr)
  | skipped
deriving DecidableEq

/-- One candidate attempt: the body of `for t in targets` in
`uia.resolve_selector`.  Strategy keys are tested in source order
(`auto_id+control_type`, then `name+control_type`, then truthy `path`); the
`return` inside each branch makes them exclusive, and an exception in the
chosen branch fails the whole candidate. -/
def tryTarget (w : Element) (t : Target) : CandResult :=
  if t.auto_id ≠ "" ∧ t.control_type ≠ "" then
    match findDescUnique w (fun a => a.auto_id == t.auto_id && a.control_type == t.control_type) with
    | .ok pe => .ok pe.1
    | .error e => .failed e
  else if t.name ≠ "" ∧ t.control_type ≠ "" then
    match findDescUnique w (fun a => a.name == t.name && a.control_type == t.control_type) with
    | .ok pe => .ok pe.1
    | .error e => .failed e
  else
    match t.path with
    | some (s :: ss) =>
      match resolve_selector_path w (s :: ss) with
      | .ok p => .ok p
      | .error e => .failed e
    | _ => .skipped

/-- Error surfaced by `uia.resolve_selector`: the `ValueError` for a
missing / non-list / empty `targets` field, or the final `LookupError`
carrying the last underlying candidate error after exhaustion. -/
inductive ResolveError where
  | invalidTargets
  | unresolvable (last : Option CandErr)
deriving DecidableEq

/-- The `targets` field of a selector payload: absent key, a non-list value,
or an actual list of candidate dicts.  (Falsy non-list values, which
`selector.get("targets") or []` turns into `[]`, behave exactly like
`notList`: both are rejected by the same `ValueError`.) -/
inductive TargetsVal where
  | missing
  | notList
  | list (ts : List Target)
deriving DecidableEq

/-- The `window` part of a selector payload (`{"title", "title_regex",
"handle", "pid"}`); `""` / `0` encode absent-or-falsy values, matching the
source's truthiness tests.  `pid` is never read by resolution. -/
structure WinPayload where
  title : String := ""
  title_regex : String := ""
  handle : Int := 0
deriving DecidableEq

/-- A v2 selector payload (`{"window": ..., "targets": [...]}`). -/
structure SelPayload where
  window : WinPayload := {}
  targets : TargetsVal := .missing
deriving DecidableEq

/-- The candidate loop of `uia.resolve_selector` with its `last_err`
accumulator. -/
def tryTargets (w : Element) : List Target → Option CandErr → Except ResolveError (List Nat)
  | [], last => .error (.unresolvable last)
  | t :: rest, last =>
    match tryTarget w t with
    | .ok p => .ok p
    | .failed e => tryTargets w rest (some e)
    | .skipped => tryTargets w rest last

/-- `uia.resolve_selector window selector`: reject a missing / non-list /
empty `targets` with `ValueError` before any candidate is attempted, then
try candidates in stored order. -/
def resolve_selector (window : Element) (selector : SelPayload) : Except ResolveError (List Nat) :=
  match selector.targets with
  | .list (t :: ts) => tryTargets window (t :: ts) none
  | _ => .error .invalidTargets

/-- The `SelectorStep` recorded by `selector_path_from_element` for the hop
landing on child `c` at sibling index `i`: the child's own attributes plus
its index among all siblings (handle uniqueness makes the sibling scan
return exactly `i`). -/
def stepOf (c : Element) (i : Nat) : SelectorStep :=
  { control_type := c.attrs.control_type
    name := c.attrs.name
    auto_id := c.attrs.auto_id
    class_name := c.attrs.class_name
    index := some i }

/-- Steps of the structural path from `e` down along position `pos` (the
root-first direction after the source reverses its ancestor chain). -/
def pathStepsAux : Element → List Nat → Option (List SelectorStep)
  | _, [] => some []
  | e, i :: rest =>
    match e.children.get? i with
    | none => none
    | some c => (pathStepsAux c rest).map (fun ss => stepOf c i :: ss)

/-- `selectors.selector_path_from_element elem window_root` for the element
at `pos` below `root`.  The source walks parent pointers for at most 256
hops and raises `ValueError` when the root is not reached, i.e. exactly when
the element's depth exceeds 255. -/
def selector_path_from_element (root : Element) (pos : List Nat) : Option (List SelectorStep) :=
  if pos.length ≤ 255 then pathStepsAux root pos else none

/-- The non-binding `class_name` hint `candidate_targets_for_element` adds
to every emitted target (a fresh target dict never carries the key yet). -/
def addClassHint (cn : String) (t : Target) : Target :=
  if cn ≠ "" ∧ t.class_name = "" then { t with class_name := cn } else t

/-- `selectors.candidate_targets_for_element` for the element at `pos`:
`auto_id+control_type` candidate when both are truthy, then
`name+control_type` candidate when both are truthy, then always the
structural-path candidate; `ValueError` from the path walk propagates
(`none`). -/
def candidate_targets_for_element (root : Element) (pos : List Nat) : Option (List Target) :=
  match subAt root pos with
  | none => none
  | some elem =>
    match selector_path_from_element root pos with
    | none => none
    | some steps =>
      let a := elem.attrs
      let c1 : List Target :=
        if a.auto_id ≠ "" ∧ a.control_type ≠ "" then
          [{ auto_id := a.auto_id, control_type := a.control_type }] else []
      let c2 : List Target :=
        if a.name ≠ "" ∧ a.control_type ≠ "" then
          [{ name := a.name, control_type := a.control_type }] else []
      some ((c1 ++ c2 ++ [({ path := some steps } : Target)]).map (addClassHint a.class_name))

/-- The selector payload `uia.selector_for_element` builds for the element
at `pos` below the window root (window metadata as observed). -/
def buildPayload (root : Element) (win : WinPayload) (pos : List Nat) : Option SelPayload :=
  (candidate_targets_for_element root pos).map
    (fun ts => ({ window := win, targets := .list ts } : SelPayload))

/-- Checks, along position `pos`, that every recorded hop step matches
exactly one sibling of its recorded parent — the disambiguation-free case of
structural-path resolution. -/
def uniqueHopsB : Element → List Nat → Bool
  | _, [] => true
  | e, i :: rest =>
    match e.children.get? i with
    | none => false
    | some c =>
      ((e.children.enum.filter (fun ic => matchStep (stepOf c i) ic.2.attrs)).length == 1)
        && uniqueHopsB c rest

/-- Modelled from the spec (§4.3), for the refinement theorem of C5: one
hop of structural-path resolution.  First the direct attribute-indexed
lookup (the spec leaves the indexed lookup abstract; as in the source it is
the unique-descendant lookup keyed on `auto_id+control_type`, else on
`name+control_type`, else unavailable); on its failure, enumerate the
current node's children and keep exactly those whose set attributes all
match the step's set attributes (absent step attributes are wildcards);
zero matches fail the whole candidate; `sibling_index` clamped to the match
count disambiguates, defaulting to the first match when no index was
recorded. -/
def hopSpec (s : SelectorStep) : Element × List Nat → Except CandErr (Element × List Nat)
  | (cur, pos) =>
    let direct : Except CandErr (Element × List Nat) :=
      if s.auto_id ≠ "" ∧ s.control_type ≠ "" then
        (findDescUnique cur (fun a => a.auto_id == s.auto_id && a.control_type == s.control_type)).map
          (fun pe => (pe.2, pos ++ pe.1))
      else if s.name ≠ "" ∧ s.control_type ≠ "" then
        (findDescUnique cur (fun a => a.name == s.name && a.control_type == s.control_type)).map
          (fun pe => (pe.2, pos ++ pe.1))
      else .error .notFound
    match direct with
    | .ok r => .ok r
    | .error _ =>
      match (cur.children.enum).filter (fun ic => matchStep s ic.2.attrs) with
      | [] => .error (.pathNoMatch s.name)
      | m :: ms =>
        let pick : Nat × Element :=
          match s.index with
          | some i => (m :: ms).getD (min i ms.length) m
          | none => m
        .ok (pick.2, pos ++ [pick.1])

/-- Spec-side structural-path resolution (§4.3): a left fold of `hopSpec`
hops from the window root — each hop consumes one step, and there is no
backtracking across hops. -/
def resolvePathSpec (w : Element) (steps : List SelectorStep) : Except CandErr (List Nat) :=
  (steps.foldlM (fun c s => hopSpec s c) (w, ([] : List Nat))).map (fun r => r.2)

/-! ## Macro engine (`macro.py`) -/

/-- Observable side effects of macro replay: sleeps, focus changes, input
injection and browser commands.  Small dwell sleeps inside click/drag
helpers are not modelled; a coordinate click's move/press/release triple is
one `clickedCoords` event. -/
inductive Event where
  | sleptMs (ms : Nat)
  | sleptSecs (secs : Nat)
  | focused (handle : Int)
  | startMenu (app : String)
  | clickedControl (handle : Int) (pos : List Nat)
  | clickedCoords (x y : Int)
  | typed (handle : Int) (pos : List Nat) (text : String) (enter : Bool)
  | browserOpen (url : String) (browser : String) (headless : Bool)
  | browserNavigate (url : String)
  | browserClick (sel : Option String) (text : Option String) (exact : Bool)
  | browserType (sel : String) (text : String) (clear : Bool)
  | browserEval (js : String)
deriving DecidableEq

/-- A live top-level window: its OS handle, its current title and its
accessibility tree. -/
structure Window where
  handle : Int
  title : String
  tree : Element

/-- The ambient desktop: the top-level window list plus the two external
matchers the engine consumes and does not specify — `re.search` for
`title_re` / `name_regex` criteria, and `pywinauto`'s fuzzy `best_match`
lookup (`find_control(control=...)`), returning the matched position when
it resolves. -/
structure World where
  windows : List Window
  rmatch : String → String → Bool
  best : Element → String → Option (List Nat)

/-- Errors raised while resolving a window or a recorded selector
(`ElementNotFoundError`, `ElementAmbiguousError`, the `ValueError` of
`get_window` with no criteria, the `RuntimeError` for a selector step
without a window, and errors of `resolve_selector`). -/
inductive SelErr where
  | winNotFound
  | winAmbiguous
  | badValue
  | selectorNeedsWindow
  | resolveErr (e : ResolveError)
deriving DecidableEq

/-- A terminal macro-engine error: the `Unknown action` `ValueError`, a
propagated selector error, the `LookupError` after exhausting
`selector_candidates` (carrying the last error), the `RuntimeError` for
classic mode with no active window, the `TimeoutError` of
`wait_for_control`, and a `KeyError` for a required argument. -/
inductive MacroError where
  | unknownAction (a : String)
  | selErr (e : SelErr)
  | candsFailed (last : Option SelErr)
  | noActiveWindow
  | classicTimeout
  | keyMissing (k : String)
deriving DecidableEq

/-- The `args` mapping of a macro step.  Defaults are the source's
`args.get(...)` defaults.  Recorded UIA selectors (dict payloads) live in
`selector` / `selector_candidates`; the browser steps read their CSS
selector and optional text as `bselector` / `btext` since the two shapes
never co-occur in one step. -/
structure Args where
  delay_before : Int := 0
  title : Option String := none
  title_regex : Option String := none
  handle : Option Int := none
  app : Option String := none
  delay_ms : Int := 250
  x : Option Int := none
  y : Option Int := none
  selector : Option SelPayload := none
  selector_candidates : Option (List SelPayload) := none
  window_title_regex : Option String := none
  text : String := ""
  enter : Bool := false
  seconds : Nat := 1
  timeout : Int := 20
  control : Option String := none
  auto_id : Option String := none
  control_type : Option String := none
  name : Option String := none
  name_regex : Option String := none
  url : Option String := none
  browser : String := "chromium"
  headless : Bool := false
  exact : Bool := false
  clear : Bool := true
  js : Option String := none
  bselector : Option String := none
  btext : Option String := none

/-- One `{action, args}` record of a loaded macro. -/
structure MacroStep where
  action : String
  args : Args

/-- Python truthiness for an optional string: `None` and `""` are falsy. -/
def tstr : Option String → Option String
  | some s => if s = "" then none else some s
  | none => none

/-- Window lookup resolution: the unique window matching the criterion
(`find_element` raises for zero or several matches). -/
def uniqueWin : List Window → Except SelErr Window
  | [w] => .ok w
  | [] => .error .winNotFound
  | _ :: _ :: _ => .error .winAmbiguous

/-- `uia.get_window`: precedence `handle`, then `title`, then `title_regex`
(each tested against `None`, not truthiness), else `ValueError`. -/
def get_window (wd : World) (title title_regex : Option String) (handle : Option Int) :
    Except SelErr Window :=
  match handle with
  | some h => uniqueWin (wd.windows.filter (fun w => w.handle == h))
  | none =>
    match title with
    | some t => uniqueWin (wd.windows.filter (fun w => w.title == t))
    | none =>
      match title_regex with
      | some rx => uniqueWin (wd.windows.filter (fun w => wd.rmatch rx w.title))
      | none => .error .badValue

/-- `uia.resolve_selector` against a focused window, pairing the window
with the resolved control as `_resolve_target` returns them. -/
def resolveSelIn (w : Window) (sel : SelPayload) : Except SelErr (Window × List Nat) :=
  match resolve_selector w.tree sel with
  | .ok p => .ok (w, p)
  | .error e => .error (.resolveErr e)

/-- The recorded-selector branch of `macro._resolve_target`: pick the
window (`window_title_regex` override, else payload `title_regex`, else
truthy payload `title`, else truthy payload `handle` with fallback to
`current_window`, else `current_window`), focus it, then resolve the
selector inside it.  The trace records the focus that happened even when
resolution then fails. -/
def resolveViaSelector (wd : World) (cw : Option Window) (args : Args) (sel : SelPayload) :
    List Event × Except SelErr (Window × List Nat) :=
  let ws := sel.window
  let wtr : Option String :=
    match tstr args.window_title_regex with
    | some r => some r
    | none => if ws.title_regex ≠ "" then some ws.title_regex else none
  match wtr with
  | some rx =>
    match get_window wd none (some rx) none with
    | .ok w => ([.focused w.handle], resolveSelIn w sel)
    | .error e => ([], .error e)
  | none =>
    if ws.title ≠ "" then
      match get_window wd (some ws.title) none none with
      | .ok w => ([.focused w.handle], resolveSelIn w sel)
      | .error e => ([], .error e)
    else if ws.handle ≠ 0 then
      match get_window wd none none (some ws.handle) with
      | .ok w => ([.focused w.handle], resolveSelIn w sel)
      | .error _ =>
        match cw with
        | none => ([], .error .selectorNeedsWindow)
        | some w => ([], resolveSelIn w sel)
    else
      match cw with
      | none => ([], .error .selectorNeedsWindow)
      | some w => ([], resolveSelIn w sel)

/-- The `selector_candidates` loop of `macro._resolve_target`: each
candidate is resolved exactly as a single recorded selector (the recursive
call re-enters the `selector` branch); the first success wins, failures
update `last_err`, and exhaustion raises the `LookupError` carrying it. -/
def tryCandidates (wd : World) (cw : Option Window) (args : Args) :
    List SelPayload → Option SelErr → List Event → List Event × Except MacroError (Window × List Nat)
  | [], last, acc => (acc, .error (.candsFailed last))
  | sel :: rest, _last, acc =>
    let (ev, r) := resolveViaSelector wd cw args sel
    match r with
    | .ok wp => (acc ++ ev, .ok wp)
    | .error e => tryCandidates wd cw args rest (some e) (acc ++ ev)

/-- Control-type criterion of `find_control`: applied only when the
argument is not `None`. -/
def ctOk (ct : Option String) (a : Attrs) : Bool :=
  match ct with
  | some c => a.control_type == c
  | none => true

/-- `uia.find_control` on a window tree: `best_match` lookup when `control`
is truthy, else `auto_id` (+ optional control type), else `name_regex`,
else `name`; `none` when the chosen lookup fails or no criterion is given
(every failure is retried and surfaced as `TimeoutError` by
`wait_for_control`, so the distinction is not observable here). -/
def find_control (wd : World) (e : Element) (args : Args) : Option (List Nat) :=
  match tstr args.control with
  | some c => wd.best e c
  | none =>
    match tstr args.auto_id with
    | some aid =>
      match findDescUnique e (fun a => a.auto_id == aid && ctOk args.control_type a) with
      | .ok pe => some pe.1
      | .error _ => none
    | none =>
      match tstr args.name_regex with
      | some rx =>
        match findDescUnique e (fun a => wd.rmatch rx a.name && ctOk args.control_type a) with
        | .ok pe => some pe.1
        | .error _ => none
      | none =>
        match tstr args.name with
        | some n =>
          match findDescUnique e (fun a => a.name == n && ctOk args.control_type a) with
          | .ok pe => some pe.1
          | .error _ => none
        | none => none

/-- The classic (manual) branch of `macro._resolve_target`: `RuntimeError`
when no window was ever focused, else `wait_for_control` over the current
window (the deterministic query is attempted once; its failure is the
`TimeoutError`). -/
def classicResolve (wd : World) (cw : Option Window) (args : Args) :
    List Event × Except MacroError (Window × List Nat) :=
  match cw with
  | none => ([], .error .noActiveWindow)
  | some w =>
    match find_control wd w.tree args with
    | some p => ([], .ok (w, p))
    | none => ([], .error .classicTimeout)

/-- `macro._resolve_target`: a truthy `selector` first, else truthy
`selector_candidates`, else classic matching. -/
def _resolve_target (wd : World) (cw : Option Window) (args : Args) :
    List Event × Except MacroError (Window × List Nat) :=
  match args.selector with
  | some sel =>
    let (ev, r) := resolveViaSelector wd cw args sel
    (ev, r.mapError .selErr)
  | none =>
    match args.selector_candidates with
    | some (sel :: rest) => tryCandidates wd cw args (sel :: rest) none []
    | _ => classicResolve wd cw args

/-- The capped inter-step sleep of `runMacroLoop`: a truthy positive
`delay_before` sleeps `min(delay_before, 5000)` milliseconds. -/
def delayEvents (args : Args) : List Event :=
  if args.delay_before > 0 then [.sleptMs (min args.delay_before 5000).toNat] else []

/-- The `focus` handler of `runMacroLoop`. -/
def runFocus (wd : World) (args : Args) : List Event × Except MacroError (Option Window) :=
  match get_window wd args.title args.title_regex args.handle with
  | .ok w => ([.focused w.handle], .ok (some w))
  | .error e => ([], .error (.selErr e))

/-- The `start` handler (`str(args.get("app"))` renders a missing app as
the string `"None"`). -/
def runStart (cw : Option Window) (args : Args) : List Event × Except MacroError (Option Window) :=
  ([.startMenu (args.app.getD "None")], .ok cw)

/-- The `click` handler: a step with no truthy selector keys but both
coordinates clicks the raw coordinates directly; otherwise resolution is
attempted and, on failure, the recorded coordinates (when both present) are
the degraded fallback; a failure with no coordinates propagates. -/
def runClick (wd : World) (cw : Option Window) (args : Args) :
    List Event × Except MacroError (Option Window) :=
  let hasSel := args.selector_candidates.getD [] ≠ [] ∨ args.selector.isSome
  match args.x, args.y with
  | some fx, some fy =>
    if hasSel then
      let (ev, r) := _resolve_target wd cw args
      match r with
      | .ok (w, p) => (ev ++ [.clickedControl w.handle p], .ok (some w))
      | .error _ => (ev ++ [.clickedCoords fx fy], .ok cw)
    else ([.clickedCoords fx fy], .ok cw)
  | _, _ =>
    let (ev, r) := _resolve_target wd cw args
    match r with
    | .ok (w, p) => (ev ++ [.clickedControl w.handle p], .ok (some w))
    | .error e => (ev, .error e)

/-- The `type` handler: always resolves a control, no coordinate
fallback. -/
def runType (wd : World) (cw : Option Window) (args : Args) :
    List Event × Except MacroError (Option Window) :=
  let (ev, r) := _resolve_target wd cw args
  match r with
  | .ok (w, p) => (ev ++ [.typed w.handle p args.text args.enter], .ok (some w))
  | .error e => (ev, .error e)

/-- The `sleep` handler: sleeps the requested seconds, uncapped. -/
def runSleep (cw : Option Window) (args : Args) : List Event × Except MacroError (Option Window) :=
  ([.sleptSecs args.seconds], .ok cw)

/-- The `browser-open` handler (`args["url"]` is required). -/
def runBrowserOpen (cw : Option Window) (args : Args) :
    List Event × Except MacroError (Option Window) :=
  match args.url with
  | some u => ([.browserOpen u args.browser args.headless], .ok cw)
  | none => ([], .error (.keyMissing "url"))

/-- The `browser-navigate` handler (`args["url"]` is required). -/
def runBrowserNavigate (cw : Option Window) (args : Args) :
    List Event × Except MacroError (Option Window) :=
  match args.url with
  | some u => ([.browserNavigate u], .ok cw)
  | none => ([], .error (.keyMissing "url"))

/-- The `browser-click` handler (both criteria optional). -/
def runBrowserClick (cw : Option Window) (args : Args) :
    List Event × Except MacroError (Option Window) :=
  ([.browserClick args.bselector args.btext args.exact], .ok cw)

/-- The `browser-type` handler (`args["selector"]` is required). -/
def runBrowserType (cw : Option Window) (args : Args) :
    List Event × Except MacroError (Option Window) :=
  match args.bselector with
  | some s => ([.browserType s args.text args.clear], .ok cw)
  | none => ([], .error (.keyMissing "selector"))

/-- The `browser-eval` handler (`args["js"]` is required). -/
def runBrowserEval (cw : Option Window) (args : Args) :
    List Event × Except MacroError (Option Window) :=
  match args.js with
  | some j => ([.browserEval j], .ok cw)
  | none => ([], .error (.keyMissing "js"))

/-- The action dispatch of `runMacroLoop`: the `if/elif` chain over the action
name, ending in the `Unknown action` `ValueError`. -/
def dispatchStep (wd : World) (cw : Option Window) (st : MacroStep) :
    List Event × Except MacroError (Option Window) :=
  if st.action = "focus" then runFocus wd st.args
  else if st.action = "start" then runStart cw st.args
  else if st.action = "click" then runClick wd cw st.args
  else if st.action = "type" then runType wd cw st.args
  else if st.action = "sleep" then runSleep cw st.args
  else if st.action = "browser-open" then runBrowserOpen cw st.args
  else if st.action = "browser-navigate" then runBrowserNavigate cw st.args
  else if st.action = "browser-click" then runBrowserClick cw st.args
  else if st.action = "browser-type" then runBrowserType cw st.args
  else if st.action = "browser-eval" then runBrowserEval cw st.args
  else ([], .error (.unknownAction st.action))

/-- One iteration of the `for step in steps` loop: the capped
`delay_before` sleep, then the dispatched action. -/
def runStep (wd : World) (cw : Option Window) (st : MacroStep) :
    List Event × Except MacroError (Option Window) :=
  (delayEvents st.args ++ (dispatchStep wd cw st).1, (dispatchStep wd cw st).2)

/-- `macro.runMacroLoop` over loaded steps: strictly sequential; the first
uncaught error aborts the run at that step. -/
def runMacroLoop (wd : World) (cw : Option Window) :
    List MacroStep → List Event × Except MacroError (Option Window)
  | [] => ([], .ok cw)
  | st :: rest =>
    let (ev, r) := runStep wd cw st
    match r with
    | .error e => (ev, .error e)
    | .ok cw1 =>
      let (ev2, r2) := runMacroLoop wd cw1 rest
      (ev ++ ev2, r2)

/-- The action names `runMacroLoop` dispatches (in source order). -/
def actionVocab : List String :=
  ["focus", "start", "click", "type", "sleep", "browser-open", "browser-navigate",
   "browser-click", "browser-type", "browser-eval"]

/-! ## Passive recorder (`recorder.py`) -/

/-- A step appended by the passive recorder: either a flushed `type` step
or a `click` step (whose `selector_candidates` key exists only when the
click resolved a selector). -/
inductive RecStep where
  | typeStep (selector_candidates : List SelPayload) (text : String) (enter : Bool)
      (timeout : Nat) (delay_before : Nat)
  | clickStep (x y : Int) (timeout : Nat) (delay_before : Nat)
      (selector_candidates : Option (List SelPayload))
deriving DecidableEq

/-- The shared mutable record of `passive_record` (`_state` plus the output
`steps` list), every transition of which runs under the one lock.
Monotonic timestamps are milliseconds. -/
structure RecState where
  type_buffer : List Char := []
  last_selector : Option SelPayload := none
  last_type_time : Nat := 0
  last_step_time : Nat := 0
  steps : List RecStep := []
deriving DecidableEq

/-- `_take_delay_ms` at monotonic time `now`: elapsed time since the last
recorded step (0 before the first), resetting the step timer. -/
def takeDelayMs (s : RecState) (now : Nat) : Nat × RecState :=
  (if s.last_step_time > 0 then now - s.last_step_time else 0,
   { s with last_step_time := now })

/-- `_flush_type`: no-op on an empty buffer without the enter flag; a step
is appended only when a selector was captured or the text is non-empty; the
buffer and the inactivity timestamp always reset. -/
def flush_type (s : RecState) (now : Nat) (enter : Bool) : RecState :=
  if s.type_buffer = [] ∧ enter = false then s
  else
    let text := String.mk s.type_buffer
    if s.last_selector.isSome ∨ text ≠ "" then
      let (d, s1) := takeDelayMs s now
      { s1 with
        steps := s1.steps ++
          [RecStep.typeStep (match s.last_selector with | some x => [x] | none => []) text enter 20 d]
        type_buffer := []
        last_type_time := 0 }
    else { s with type_buffer := [], last_type_time := 0 }

/-- `on_click` for a left-button press at `(x, y)` whose UIA lookup
produced `sel` (or `none` when it failed): flush pending typing, remember
the selector, append the click step. -/
def on_click (s : RecState) (x y : Int) (sel : Option SelPayload) (now : Nat) : RecState :=
  let s1 := flush_type s now false
  let s2 := { s1 with last_selector := sel }
  let (d, s3) := takeDelayMs s2 now
  { s3 with
    steps := s3.steps ++ [RecStep.clickStep x y 20 d (sel.map (fun x0 => [x0]))] }

/-- An input event delivered to the recorder's listeners, carrying its
monotonic timestamp: a printable keystroke, the Enter key, any other
non-printable key, the periodic inactivity check, a left click (with the
result of the out-of-lock UIA lookup), or the F9 stop (whose final flush
runs after the listeners stop). -/
inductive RecEvent where
  | keyChar (c : Char) (t : Nat)
  | keyEnter (t : Nat)
  | keyOther (t : Nat)
  | idleCheck (t : Nat)
  | click (x y : Int) (sel : Option SelPayload) (t : Nat)
  | stop (t : Nat)

/-- One recorder state transition (each runs inside the lock):
`on_key_press` for keys — printable characters accumulate and reset the
inactivity timer, Enter flushes with the submit flag, any other key flushes
silently discarding the key; the idle thread flushes a non-empty buffer
idle for more than 1.5 s; `on_click` as above; F9 stops and flushes. -/
def recStep (s : RecState) : RecEvent → RecState
  | .keyChar c t => { s with type_buffer := s.type_buffer ++ [c], last_type_time := t }
  | .keyEnter t => flush_type s t true
  | .keyOther t => flush_type s t false
  | .idleCheck t =>
    if s.type_buffer ≠ [] ∧ s.last_type_time > 0 ∧ t - s.last_type_time > 1500 then
      flush_type s t false
    else s
  | .click x y sel t => on_click s x y sel t
  | .stop t => flush_type s t false

/-- The recorder run: chronological fold of lock-serialized transitions. -/
def recRun (s : RecState) (evs : List RecEvent) : RecState :=
  evs.foldl recStep s

/-! ## Observation helpers and concrete fixtures -/

/-- Number of candidates the `resolve_selector` loop examines: every
candidate up to and including the first success (all of them when none
succeeds). -/
def attemptsCount (w : Element) : List Target → Nat
  | [] => 0
  | t :: rest =>
    match tryTarget w t with
    | .ok _ => 1
    | _ => 1 + attemptsCount w rest

/-- A window whose three children are a `"U"`-typed control followed by two
indistinguishable `"T"`-typed controls.  The UI tree of the C1
counterexample. -/
def exC1root : Element :=
  .node {} [.node { control_type := "U" } [], .node { control_type := "T" } [],
            .node { control_type := "T" } []]

/-- The selector the Builder produces for the first `"T"` control (position
`[1]`) of `exC1root`. -/
def exC1payload : SelPayload :=
  { window := { title := "W" },
    targets := .list [{ path := some [{ control_type := "T", index := some 1 }] }] }

/-- A fully-attributed button control. -/
def btnOK : Element := .node { control_type := "Button", name := "OK", auto_id := "okBtn" } []

/-- A window with one pane containing one fully-attributed button: a tree
on which every structural hop matches uniquely. -/
def exRound : Element := .node {} [.node { control_type := "Pane" } [btnOK]]

/-- The selector the Builder produces for the button at `[0, 0]` of
`exRound`. -/
def exRoundPayload : SelPayload :=
  { window := {},
    targets := .list [
      { auto_id := "okBtn", control_type := "Button" },
      { name := "OK", control_type := "Button" },
      { path := some [{ control_type := "Pane", index := some 0 },
                      { control_type := "Button", name := "OK", auto_id := "okBtn",
                        index := some 0 }] }] }

/-- A window with a single child carrying a stable id but no control type
(the C4 counterexample control). -/
def exC4root : Element := .node {} [.node { auto_id := "X" } []]

/-- A window tree with one `OK` button, for the macro fixtures. -/
def treeC2 : Element := .node {} [.node { control_type := "Button", name := "OK" } []]

/-- The live window wrapping `treeC2`. -/
def winC2 : Window := { handle := 7, title := "App", tree := treeC2 }

/-- A desktop with only `winC2`; the regex and best-match oracles match
nothing (they are irrelevant to the fixtures). -/
def worldC2 : World :=
  { windows := [winC2], rmatch := fun _ _ => false, best := fun _ _ => none }

/-- A recorded selector that resolves in `worldC2` (window by handle,
target by name and control type). -/
def selGood : SelPayload :=
  { window := { handle := 7 },
    targets := .list [{ name := "OK", control_type := "Button" }] }

/-- A recorded selector whose only candidate matches nothing in
`worldC2`. -/
def selBad : SelPayload :=
  { window := { handle := 7 },
    targets := .list [{ name := "Nope", control_type := "Button" }] }

/-- Step args carrying both a failing single `selector` and a succeeding
candidate in `selector_candidates`. -/
def argsC2 : Args := { selector := some selBad, selector_candidates := some [selGood] }

/-- A recorded selector used by the recorder fixtures. -/
def selRec : SelPayload :=
  { window := { title := "Pad" },
    targets := .list [{ name := "Edit", control_type := "Edit" }] }

/-! ## Theorems -/

theorem addClassHint_path (cn : String) (t : Target) : (addClassHint cn t).path = t.path := by
  unfold addClassHint
  split <;> rfl

theorem addClassHint_auto_id (cn : String) (t : Target) :
    (addClassHint cn t).auto_id = t.auto_id := by
  unfold addClassHint
  split <;> rfl

theorem addClassHint_name (cn : String) (t : Target) : (addClassHint cn t).name = t.name := by
  unfold addClassHint
  split <;> rfl

theorem pathStepsAux_isSome :
    ∀ (pos : List Nat) (e x : Element), subAt e pos = some x →
      ∃ steps, pathStepsAux e pos = some steps := by
  intro pos
  induction pos with
  | nil => exact fun e x _ => ⟨[], rfl⟩
  | cons i rest ih =>
    intro e x h
    rcases hg : e.children.get? i with _ | c
    · rw [subAt, hg] at h
      exact absurd h (by simp)
    · rw [subAt, hg] at h
      obtain ⟨ss, hss⟩ := ih c x h
      refine ⟨stepOf c i :: ss, ?_⟩
      rw [pathStepsAux, hg]
      show Option.map (fun l => stepOf c i :: l) (pathStepsAux c rest) = some (stepOf c i :: ss)
      rw [hss]
      rfl

/-- C9: a selector whose `targets` field is missing, not a list, or an
empty list is rejected by `resolve_selector` with the `ValueError`
(`invalidTargets`) before any candidate is attempted, an error distinct
from the `Unresolvable` raised after exhausting candidates. -/
theorem c9_invalid_selector (w : Element) (sel : SelPayload)
    (h : sel.targets = .missing ∨ sel.targets = .notList ∨ sel.targets = .list []) :
    resolve_selector w sel = .error .invalidTargets ∧
      ∀ last, (ResolveError.invalidTargets ≠ ResolveError.unresolvable last) := by
  constructor
  · rcases h with h | h | h <;> simp [resolve_selector, h]
  · intro last
    simp

/-- Witness for C9 at a concrete empty-targets selector. -/
theorem c9_witness :
    resolve_selector exC1root { targets := .list [] } = .error .invalidTargets :=
  (c9_invalid_selector exC1root { targets := .list [] } (Or.inr (Or.inr rfl))).1

/-- C7: every step with a truthy positive `delay_before` sleeps
`min(delay_before, 5000)` milliseconds before its action, while a `sleep`
step sleeps its full requested duration with no cap. -/
theorem c7_delay_clamp :
    (∀ (wd : World) (cw : Option Window) (st : MacroStep), 0 < st.args.delay_before →
        (runStep wd cw st).1.head? =
          some (.sleptMs (min st.args.delay_before 5000).toNat)) ∧
    (∀ (wd : World) (cw : Option Window) (st : MacroStep), st.action = "sleep" →
        runStep wd cw st = (delayEvents st.args ++ [.sleptSecs st.args.seconds], .ok cw)) := by
  constructor
  · intro wd cw st h
    simp [runStep, delayEvents, h]
  · intro wd cw st h
    simp [runStep, dispatchStep, h, runSleep]

/-- Witness for C7: a recorded `delay_before` of 10000 ms replays as a
5000 ms sleep, and a 7-second `sleep` step sleeps the full 7 seconds. -/
theorem c7_witness :
    (runStep worldC2 none { action := "sleep", args := { delay_before := 10000, seconds := 7 } }).1.head?
        = some (.sleptMs 5000) ∧
    runStep worldC2 none { action := "sleep", args := { delay_before := 10000, seconds := 7 } }
        = ([.sleptMs 5000, .sleptSecs 7], .ok none) := by
  constructor
  · exact c7_delay_clamp.1 worldC2 none _ (by decide)
  · exact c7_delay_clamp.2 worldC2 none _ rfl

/-- C10 (counterexample): after a click that produced a selector and a
first Enter flush, a second Enter — empty buffer, no selector recorded
since the last flush — still emits another empty `type` step, because
`_flush_type` never clears `last_selector`; the claim predicts no step at
all for the third event. -/
theorem c10_counterexample :
    (recRun {} [.click 3 4 (some selRec) 10, .keyEnter 20, .keyEnter 30]).steps =
      [RecStep.clickStep 3 4 20 0 (some [selRec]),
       RecStep.typeStep [selRec] "" true 20 10,
       RecStep.typeStep [selRec] "" true 20 10] := by
  decide

/-- C10 (amended): pressing Enter with an empty keystroke buffer emits an
empty `type` step with `enter=true` exactly when the most recent click
resolved a selector (`last_selector` is set — a value that persists across
flushes); when no click ever resolved a selector (`last_selector` is
`None`) the Enter press emits nothing. -/
theorem c10_empty_buffer_enter :
    (∀ (s : RecState) (t : Nat) (sel : SelPayload),
        s.type_buffer = [] → s.last_selector = some sel →
        (recStep s (.keyEnter t)).steps = s.steps ++
          [RecStep.typeStep [sel] "" true 20
            (if s.last_step_time > 0 then t - s.last_step_time else 0)]) ∧
    (∀ (s : RecState) (t : Nat),
        s.type_buffer = [] → s.last_selector = none →
        (recStep s (.keyEnter t)).steps = s.steps) := by
  constructor
  · intro s t sel hb hsel
    simp [recStep, flush_type, hb, hsel, takeDelayMs]
  · intro s t hb hsel
    simp [recStep, flush_type, hb, hsel]

/-- Witness for C10 (amended), both branches at concrete states. -/
theorem c10_witness :
    (recStep { type_buffer := [], last_selector := some selRec, last_step_time := 5 }
        (.keyEnter 9)).steps = [RecStep.typeStep [selRec] "" true 20 4] ∧
    (recStep ({} : RecState) (.keyEnter 9)).steps = [] := by
  constructor
  · exact c10_empty_buffer_enter.1 _ 9 selRec rfl rfl
  · exact c10_empty_buffer_enter.2 ({} : RecState) 9 rfl rfl

/-- C8: from any state with an empty buffer, the event sequence — printable
`h`, printable `i`, Enter, left click — appends exactly one `type` step with
`text="hi"` and `enter=true` followed by exactly one `click` step; the Enter
key itself is never added to the buffer (the buffer is empty after any
Enter) and any other non-printable key only flushes the pending buffer as a
`type` step, the key itself being discarded. -/
theorem c8_recorder_scenario :
    (∀ (s : RecState) (t1 t2 t3 t4 : Nat) (x y : Int) (sel : Option SelPayload),
        s.type_buffer = [] →
        (recRun s [.keyChar (Char.ofNat 104) t1, .keyChar (Char.ofNat 105) t2, .keyEnter t3,
            .click x y sel t4]).steps =
          s.steps ++
            [RecStep.typeStep (match s.last_selector with | some z => [z] | none => []) "hi" true 20
               (if s.last_step_time > 0 then t3 - s.last_step_time else 0),
             RecStep.clickStep x y 20 (if t3 > 0 then t4 - t3 else 0)
               (sel.map (fun z => [z]))]) ∧
    (∀ (s : RecState) (t : Nat), (recStep s (.keyEnter t)).type_buffer = []) ∧
    (∀ (s : RecState) (t : Nat),
        (recStep s (.keyOther t)).type_buffer = [] ∧
        ((recStep s (.keyOther t)).steps = s.steps ∨
          ∃ cands txt d, (recStep s (.keyOther t)).steps =
            s.steps ++ [RecStep.typeStep cands txt false 20 d])) := by
  refine ⟨?_, ?_, ?_⟩
  · intro s t1 t2 t3 t4 x y sel hb
    have hs : String.mk [Char.ofNat 104, Char.ofNat 105] = "hi" := rfl
    cases hsel : s.last_selector <;>
      simp [recRun, recStep, flush_type, on_click, takeDelayMs, hb, hsel, hs]
  · intro s t
    by_cases hb : s.type_buffer = [] <;> simp [recStep, flush_type, hb] <;> split <;> simp
  · intro s t
    constructor
    · by_cases hb : s.type_buffer = [] <;> simp [recStep, flush_type, hb] <;> split <;> simp
    · by_cases hb : s.type_buffer = []
      · left
        simp [recStep, flush_type, hb]
      · by_cases hfl : s.last_selector.isSome ∨ String.mk s.type_buffer ≠ ""
        · right
          refine ⟨(match s.last_selector with | some z => [z] | none => []),
            String.mk s.type_buffer,
            (if s.last_step_time > 0 then t - s.last_step_time else 0), ?_⟩
          simp [recStep, flush_type, hb, hfl, takeDelayMs]
        · left
          simp [recStep, flush_type, hb, hfl]

/-- Witness for C8 from the initial recorder state. -/
theorem c8_witness :
    (recRun {} [.keyChar (Char.ofNat 104) 1, .keyChar (Char.ofNat 105) 2, .keyEnter 3,
        .click 8 9 (some selRec) 4]).steps =
      [RecStep.typeStep [] "hi" true 20 0, RecStep.clickStep 8 9 20 1 (some [selRec])] :=
  c8_recorder_scenario.1 {} 1 2 3 4 8 9 (some selRec) rfl

/-- C4 (counterexample): the control at `[0]` of `exC4root` has a stable id
(`"X"`) but no control type; the Builder emits no stable-id candidate for
it — only the structural-path candidate — because the source requires
`auto_id` AND `control_type` to be truthy. -/
theorem c4_counterexample :
    (subAt exC4root [0]).map Element.attrs = some { auto_id := "X" } ∧
    candidate_targets_for_element exC4root [0] =
      some [{ path := some [{ auto_id := "X", index := some 0 }] }] := by
  exact ⟨by decide, by decide⟩

/-- C4 (amended): for every control reachable within the 255-hop bound, the
Builder emits the stable-id candidate exactly when both the stable id and
the control type are present (and then first), the name candidate exactly
when both the name and the control type are present (and then second to
last), and always emits the structural-path candidate last — ordered
stable-id > name > structural-path, the path candidate never omitted. -/
theorem c4_candidate_emission (root : Element) (pos : List Nat) (elem : Element)
    (hget : subAt root pos = some elem) (hlen : pos.length ≤ 255) :
    ∃ ts steps,
      candidate_targets_for_element root pos = some ts ∧
      selector_path_from_element root pos = some steps ∧
      ts.getLast? = some (addClassHint elem.attrs.class_name { path := some steps }) ∧
      ((elem.attrs.auto_id ≠ "" ∧ elem.attrs.control_type ≠ "") ↔
        ts.head? = some (addClassHint elem.attrs.class_name
          { auto_id := elem.attrs.auto_id, control_type := elem.attrs.control_type })) ∧
      ((elem.attrs.name ≠ "" ∧ elem.attrs.control_type ≠ "") ↔
        ts.get? (ts.length - 2) = some (addClassHint elem.attrs.class_name
          { name := elem.attrs.name, control_type := elem.attrs.control_type })) := by
  obtain ⟨steps, hsteps⟩ := pathStepsAux_isSome pos root elem hget
  have hsel : selector_path_from_element root pos = some steps := by
    rw [selector_path_from_element, if_pos hlen]
    exact hsteps
  have hct : candidate_targets_for_element root pos = some
      (((if elem.attrs.auto_id ≠ "" ∧ elem.attrs.control_type ≠ "" then
          [({ auto_id := elem.attrs.auto_id, control_type := elem.attrs.control_type } : Target)]
         else []) ++
        (if elem.attrs.name ≠ "" ∧ elem.attrs.control_type ≠ "" then
          [({ name := elem.attrs.name, control_type := elem.attrs.control_type } : Target)]
         else []) ++
        [({ path := some steps } : Target)]).map (addClassHint elem.attrs.class_name)) := by
    rw [candidate_targets_for_element, hget, hsel]
  set cn := elem.attrs.class_name with hcn
  set a := elem.attrs.auto_id with ha
  set n := elem.attrs.name with hn
  set ct := elem.attrs.control_type with hctp
  have hPathNe : ∀ t2 : Target, t2.path = none →
      addClassHint cn ({ path := some steps } : Target) ≠ addClassHint cn t2 := by
    intro t2 h2 he
    have := congrArg Target.path he
    rw [addClassHint_path, addClassHint_path, h2] at this
    exact Option.noConfusion this
  by_cases h1 : a ≠ "" ∧ ct ≠ ""
  · by_cases h2 : n ≠ "" ∧ ct ≠ ""
    · refine ⟨[addClassHint cn { auto_id := a, control_type := ct },
          addClassHint cn { name := n, control_type := ct },
          addClassHint cn { path := some steps }], steps, ?_, hsel, ?_, ?_, ?_⟩
      · rw [hct]
        simp [h1, h2]
      · simp
      · simp [h1, h2]
      · simp [h1, h2]
    · have hn0 : n = "" := by
        rcases not_and_or.mp h2 with h | h
        · exact not_not.mp h
        · exact absurd h1.2 h
      refine ⟨[addClassHint cn { auto_id := a, control_type := ct },
          addClassHint cn { path := some steps }], steps, ?_, hsel, ?_, ?_, ?_⟩
      · rw [hct]
        simp [h1, hn0]
      · simp
      · simp [h1]
      · rw [iff_false_intro h2]
        simp only [List.length_cons, List.length_nil, false_iff]
        intro hc
        rw [List.get?] at hc
        have := congrArg Target.auto_id (Option.some.inj hc)
        rw [addClassHint_auto_id, addClassHint_auto_id] at this
        exact h1.1 (by simpa using this)
  · by_cases h2 : n ≠ "" ∧ ct ≠ ""
    · have ha0 : a = "" := by
        rcases not_and_or.mp h1 with h | h
        · exact not_not.mp h
        · exact absurd h2.2 h
      refine ⟨[addClassHint cn { name := n, control_type := ct },
          addClassHint cn { path := some steps }], steps, ?_, hsel, ?_, ?_, ?_⟩
      · rw [hct]
        simp [h2, ha0]
      · simp
      · rw [iff_false_intro h1]
        simp only [List.head?_cons, false_iff]
        intro hc
        have := congrArg Target.name (Option.some.inj hc)
        rw [addClassHint_name, addClassHint_name] at this
        exact h2.1 (by simpa using this)
      · simp [h2]
    · refine ⟨[addClassHint cn { path := some steps }], steps, ?_, hsel, ?_, ?_, ?_⟩
      · rw [hct]
        simp [h1, h2]
      · simp
      · rw [iff_false_intro h1]
        simp only [List.head?_cons, false_iff]
        intro hc
        exact hPathNe _ rfl (Option.some.inj hc)
      · rw [iff_false_intro h2]
        simp only [List.length_cons, List.length_nil, false_iff]
        intro hc
        rw [List.get?] at hc
        exact hPathNe _ rfl (Option.some.inj hc)

/-- Witness for C4 (amended) at the button of `exRound`. -/
theorem c4_witness :
    ∃ ts steps,
      candidate_targets_for_element exRound [0, 0] = some ts ∧
      selector_path_from_element exRound [0, 0] = some steps ∧
      ts.getLast? = some (addClassHint btnOK.attrs.class_name { path := some steps }) ∧
      ((btnOK.attrs.auto_id ≠ "" ∧ btnOK.attrs.control_type ≠ "") ↔
        ts.head? = some (addClassHint btnOK.attrs.class_name
          { auto_id := btnOK.attrs.auto_id, control_type := btnOK.attrs.control_type })) ∧
      ((btnOK.attrs.name ≠ "" ∧ btnOK.attrs.control_type ≠ "") ↔
        ts.get? (ts.length - 2) = some (addClassHint btnOK.attrs.class_name
          { name := btnOK.attrs.name, control_type := btnOK.attrs.control_type })) :=
  c4_candidate_emission exRound [0, 0] btnOK rfl (by decide)

/-- C1 (counterexample): in the unchanged tree `exC1root`, building a
selector for the control at position `[1]` and resolving it against the
same window yields the control at position `[2]` — a different identity —
because the recorded sibling index (an index among all siblings) is applied
to the filtered match list. -/
theorem c1_counterexample :
    buildPayload exC1root { title := "W" } [1] = some exC1payload ∧
    resolve_selector exC1root exC1payload = .ok [2] ∧
    ([2] : List Nat) ≠ [1] := by
  exact ⟨by decide, by decide, by decide⟩

theorem hopSpec_cases (s : SelectorStep) (cur : Element) (pos : List Nat) :
    hopSpec s (cur, pos) =
      match fastLookup cur s with
      | some (p, c) => .ok (c, pos ++ p)
      | none =>
        match scanStep cur s with
        | .error e => .error e
        | .ok (i, c) => .ok (c, pos ++ [i]) := by
  unfold hopSpec fastLookup scanStep
  by_cases hA : s.auto_id ≠ "" ∧ s.control_type ≠ ""
  · rcases hf : findDescUnique cur
        (fun a => a.auto_id == s.auto_id && a.control_type == s.control_type) with e | pe
    · simp only [if_pos hA, hf]
      rcases hm : (cur.children.enum).filter (fun ic => matchStep s ic.2.attrs) with _ | ⟨m, ms⟩
      · simp [Except.map, hm]
      · simp [Except.map, hm]
    · simp [if_pos hA, hf, Except.map]
  · by_cases hB : s.name ≠ "" ∧ s.control_type ≠ ""
    · rcases hf : findDescUnique cur
          (fun a => a.name == s.name && a.control_type == s.control_type) with e | pe
      · simp only [if_neg hA, if_pos hB, hf]
        rcases hm : (cur.children.enum).filter (fun ic => matchStep s ic.2.attrs) with _ | ⟨m, ms⟩
        · simp [Except.map, hm]
        · simp [Except.map, hm]
      · simp [if_neg hA, if_pos hB, hf, Except.map]
    · simp only [if_neg hA, if_neg hB]
      rcases hm : (cur.children.enum).filter (fun ic => matchStep s ic.2.attrs) with _ | ⟨m, ms⟩
      · simp [hm]
      · simp [hm]

theorem resolvePathAux_fold :
    ∀ (steps : List SelectorStep) (cur : Element) (pos : List Nat),
      resolvePathAux cur pos steps =
        (steps.foldlM (fun c s => hopSpec s c) (cur, pos)).map (fun r => r.2) := by
  intro steps
  induction steps with
  | nil => intro cur pos; rfl
  | cons s rest ih =>
    intro cur pos
    rw [List.foldlM_cons, hopSpec_cases]
    rcases hfast : fastLookup cur s with _ | ⟨p, c⟩
    · rcases hscan : scanStep cur s with e | ⟨i, c⟩
      · rw [resolvePathAux, hfast, hscan]
        rfl
      · rw [resolvePathAux, hfast, hscan]
        exact ih c (pos ++ [i])
    · rw [resolvePathAux, hfast]
      exact ih c (pos ++ p)

/-- C5: structural-path resolution is exactly the spec's per-hop algorithm
folded from the window root with no backtracking across hops — at each hop
the direct attribute-indexed lookup first, on failure the child-scan that
keeps exactly the children whose set attributes match the step's set
attributes (absent attributes are wildcards), failing the whole candidate
on zero matches, disambiguating by the recorded `sibling_index` clamped to
the match count and defaulting to the first match. -/
theorem c5_path_resolution (w : Element) (steps : List SelectorStep) :
    resolve_selector_path w steps = resolvePathSpec w steps :=
  resolvePathAux_fold steps w []

theorem tryTargets_all_fail :
    ∀ (init : List Target) (w : Element) (lastT : Target) (e : CandErr) (acc : Option CandErr),
      (∀ t ∈ init, ∃ e2, tryTarget w t = .failed e2) →
      tryTarget w lastT = .failed e →
      tryTargets w (init ++ [lastT]) acc = .error (.unresolvable (some e)) := by
  intro init
  induction init with
  | nil =>
    intro w lastT e acc _ hl
    rw [List.nil_append, tryTargets, hl]
    rfl
  | cons t ts ih =>
    intro w lastT e acc hall hl
    obtain ⟨e2, he2⟩ := hall t (List.mem_cons_self t ts)
    rw [List.cons_append, tryTargets, he2]
    exact ih w lastT e (some e2) (fun x hx => hall x (List.mem_cons_of_mem _ hx)) hl

theorem tryTargets_first_success :
    ∀ (broken : List Target) (w : Element) (good : Target) (p : List Nat) (acc : Option CandErr),
      (∀ t ∈ broken, ∃ e2, tryTarget w t = .failed e2) →
      tryTarget w good = .ok p →
      tryTargets w (broken ++ [good]) acc = .ok p := by
  intro broken
  induction broken with
  | nil =>
    intro w good p acc _ hg
    rw [List.nil_append, tryTargets, hg]
  | cons t ts ih =>
    intro w good p acc hall hg
    obtain ⟨e2, he2⟩ := hall t (List.mem_cons_self t ts)
    rw [List.cons_append, tryTargets, he2]
    exact ih w good p (some e2) (fun x hx => hall x (List.mem_cons_of_mem _ hx)) hg

theorem attemptsCount_first_success :
    ∀ (broken : List Target) (w : Element) (good : Target) (p : List Nat),
      (∀ t ∈ broken, ∃ e2, tryTarget w t = .failed e2) →
      tryTarget w good = .ok p →
      attemptsCount w (broken ++ [good]) = broken.length + 1 := by
  intro broken
  induction broken with
  | nil =>
    intro w good p _ hg
    rw [List.nil_append, attemptsCount, hg]
    rfl
  | cons t ts ih =>
    intro w good p hall hg
    obtain ⟨e2, he2⟩ := hall t (List.mem_cons_self t ts)
    rw [List.cons_append, attemptsCount, he2]
    rw [ih w good p (fun x hx => hall x (List.mem_cons_of_mem _ hx)) hg]
    simp [List.length_cons]
    omega

/-- C3: the Resolver attempts the stored candidates strictly in order —
when every candidate fails, it raises `Unresolvable` carrying the error of
the last candidate; when the first `N` candidates fail and the next one
resolves, it returns that result having attempted exactly `N + 1`
candidates. -/
theorem c3_candidate_order :
    (∀ (w : Element) (win : WinPayload) (init : List Target) (lastT : Target) (e : CandErr),
        (∀ t ∈ init, ∃ e2, tryTarget w t = .failed e2) →
        tryTarget w lastT = .failed e →
        resolve_selector w { window := win, targets := .list (init ++ [lastT]) } =
          .error (.unresolvable (some e))) ∧
    (∀ (w : Element) (win : WinPayload) (broken : List Target) (good : Target) (p : List Nat),
        (∀ t ∈ broken, ∃ e2, tryTarget w t = .failed e2) →
        tryTarget w good = .ok p →
        resolve_selector w { window := win, targets := .list (broken ++ [good]) } = .ok p ∧
        attemptsCount w (broken ++ [good]) = broken.length + 1) := by
  constructor
  · intro w win init lastT e hall hl
    have hres : resolve_selector w { window := win, targets := .list (init ++ [lastT]) } =
        tryTargets w (init ++ [lastT]) none := by
      cases init <;> rfl
    rw [hres]
    exact tryTargets_all_fail init w lastT e none hall hl
  · intro w win broken good p hall hg
    have hres : resolve_selector w { window := win, targets := .list (broken ++ [good]) } =
        tryTargets w (broken ++ [good]) none := by
      cases broken <;> rfl
    rw [hres]
    exact ⟨tryTargets_first_success broken w good p none hall hg,
      attemptsCount_first_success broken w good p hall hg⟩

/-- Witness for C3: two deliberately broken candidates followed by a valid
structural path — resolution succeeds at the path and exactly three
candidates are attempted; and the all-broken selector fails with the last
error. -/
theorem c3_witness :
    (resolve_selector exC1root { window := {}, targets := .list [
          { auto_id := "zz", control_type := "T" }, { name := "nah", control_type := "T" },
          { path := some [{ control_type := "T", index := some 2 }] }] } = .ok [2] ∧
      attemptsCount exC1root
        [{ auto_id := "zz", control_type := "T" }, { name := "nah", control_type := "T" },
         { path := some [{ control_type := "T", index := some 2 }] }] = 3) ∧
    resolve_selector exC1root { window := {}, targets := .list [
          { auto_id := "zz", control_type := "T" },
          { name := "nah", control_type := "T" }] } =
      .error (.unresolvable (some .notFound)) := by
  have hfail : ∀ t ∈ [({ auto_id := "zz", control_type := "T" } : Target),
      { name := "nah", control_type := "T" }], ∃ e2, tryTarget exC1root t = .failed e2 := by
    intro t ht
    simp only [List.mem_cons, List.not_mem_nil, or_false] at ht
    rcases ht with rfl | rfl
    · exact ⟨.notFound, by decide⟩
    · exact ⟨.notFound, by decide⟩
  constructor
  · exact c3_candidate_order.2 exC1root {}
      [{ auto_id := "zz", control_type := "T" }, { name := "nah", control_type := "T" }]
      { path := some [{ control_type := "T", index := some 2 }] } [2] hfail (by decide)
  · exact c3_candidate_order.1 exC1root {}
      [{ auto_id := "zz", control_type := "T" }]
      { name := "nah", control_type := "T" } .notFound
      (fun t ht => by
        simp only [List.mem_cons, List.not_mem_nil, or_false] at ht
        rw [ht]
        exact ⟨.notFound, by decide⟩)
      (by decide)

theorem tryCandidates_ne_unknown (wd : World) (cw : Option Window) (args : Args) (a : String) :
    ∀ (cs : List SelPayload) (last : Option SelErr) (acc : List Event),
      (tryCandidates wd cw args cs last acc).2 ≠ .error (.unknownAction a) := by
  intro cs
  induction cs with
  | nil => intro last acc; simp [tryCandidates]
  | cons sel rest ih =>
    intro last acc
    rw [tryCandidates]
    rcases h : (resolveViaSelector wd cw args sel) with ⟨ev, r⟩
    rcases r with e | wp
    · exact ih (some e) (acc ++ ev)
    · simp

theorem classicResolve_ne_unknown (wd : World) (cw : Option Window) (args : Args) (a : String) :
    (classicResolve wd cw args).2 ≠ .error (.unknownAction a) := by
  rcases cw with _ | w
  · simp [classicResolve]
  · simp only [classicResolve]
    rcases find_control wd w.tree args with _ | p <;> simp

theorem resolve_target_ne_unknown (wd : World) (cw : Option Window) (args : Args) (a : String) :
    (_resolve_target wd cw args).2 ≠ .error (.unknownAction a) := by
  rw [_resolve_target]
  rcases args.selector with _ | sel
  · rcases args.selector_candidates with _ | cs
    · exact classicResolve_ne_unknown wd cw args a
    · rcases cs with _ | ⟨sel, rest⟩
      · exact classicResolve_ne_unknown wd cw args a
      · exact tryCandidates_ne_unknown wd cw args a (sel :: rest) none []
  · rcases h : (resolveViaSelector wd cw args sel) with ⟨ev, r⟩
    rcases r with e | wp <;> simp [h, Except.mapError]

theorem runType_ne_unknown (wd : World) (cw : Option Window) (args : Args) (a : String) :
    (runType wd cw args).2 ≠ .error (.unknownAction a) := by
  rw [runType]
  rcases hr : (_resolve_target wd cw args) with ⟨ev, r⟩
  rcases r with e | ⟨w, p⟩
  · have hne := resolve_target_ne_unknown wd cw args a
    rw [hr] at hne
    simpa using hne
  · simp

theorem runClick_ne_unknown (wd : World) (cw : Option Window) (args : Args) (a : String) :
    (runClick wd cw args).2 ≠ .error (.unknownAction a) := by
  rw [runClick]
  rcases hx : args.x with _ | fx <;> rcases hy : args.y with _ | fy <;> simp only [hx, hy]
  · rcases hr : (_resolve_target wd cw args) with ⟨ev, r⟩
    rcases r with e | ⟨w, p⟩
    · have hne := resolve_target_ne_unknown wd cw args a
      rw [hr] at hne
      simp only [hr]
      simpa using hne
    · simp [hr]
  · rcases hr : (_resolve_target wd cw args) with ⟨ev, r⟩
    rcases r with e | ⟨w, p⟩
    · have hne := resolve_target_ne_unknown wd cw args a
      rw [hr] at hne
      simp only [hr]
      simpa using hne
    · simp [hr]
  · rcases hr : (_resolve_target wd cw args) with ⟨ev, r⟩
    rcases r with e | ⟨w, p⟩
    · have hne := resolve_target_ne_unknown wd cw args a
      rw [hr] at hne
      simp only [hr]
      simpa using hne
    · simp [hr]
  · split
    · rcases hr : (_resolve_target wd cw args) with ⟨ev, r⟩
      rcases r with e | ⟨w, p⟩ <;> simp [hr]
    · simp

theorem dispatch_ne_unknown_of_mem (wd : World) (cw : Option Window) (st : MacroStep)
    (hmem : st.action ∈ actionVocab) :
    (dispatchStep wd cw st).2 ≠ .error (.unknownAction st.action) := by
  simp only [actionVocab, List.mem_cons, List.not_mem_nil, or_false] at hmem
  rcases hmem with h | h | h | h | h | h | h | h | h | h <;> rw [dispatchStep] <;>
    simp only [h, if_true, String.reduceEq, if_false]
  · rw [runFocus]
    split <;> simp
  · simp [runStart]
  · exact runClick_ne_unknown wd cw st.args "click"
  · exact runType_ne_unknown wd cw st.args "type"
  · simp [runSleep]
  · rw [runBrowserOpen]
    split <;> simp
  · rw [runBrowserNavigate]
    split <;> simp
  · simp [runBrowserClick]
  · rw [runBrowserType]
    split <;> simp
  · rw [runBrowserEval]
    split <;> simp

theorem runStep_unknown (wd : World) (cw : Option Window) (st : MacroStep)
    (h : st.action ∉ actionVocab) :
    runStep wd cw st = (delayEvents st.args, .error (.unknownAction st.action)) := by
  simp only [actionVocab, List.mem_cons, List.not_mem_nil, or_false, not_or] at h
  obtain ⟨h1, h2, h3, h4, h5, h6, h7, h8, h9, h10⟩ := h
  rw [runStep, dispatchStep]
  simp [h1, h2, h3, h4, h5, h6, h7, h8, h9, h10]

theorem runMacroLoop_cons (wd : World) (cw : Option Window) (st : MacroStep)
    (rest : List MacroStep) :
    runMacroLoop wd cw (st :: rest) =
      match (runStep wd cw st).2 with
      | .error e => ((runStep wd cw st).1, .error e)
      | .ok cw1 => ((runStep wd cw st).1 ++ (runMacroLoop wd cw1 rest).1,
          (runMacroLoop wd cw1 rest).2) := by
  rcases h : runStep wd cw st with ⟨ev, r⟩
  rw [runMacroLoop, h]

/-- C6 (counterexample): a step with action `"start-app"` — which the claim
lists in the dispatched vocabulary — is NOT dispatched to a handler: the
engine's Start-menu action is named `"start"`, so `"start-app"` hits the
`Unknown action` error. -/
theorem c6_counterexample :
    runStep worldC2 none { action := "start-app", args := {} } =
      ([], .error (.unknownAction "start-app")) ∧
    runStep worldC2 none { action := "start", args := {} } =
      ([.startMenu "None"], .ok none) := by
  exact ⟨rfl, rfl⟩

/-- C6 (amended): a macro step is dispatched without `UnknownAction`
exactly when its action is in the vocabulary `focus, start, click, type,
sleep, browser-open, browser-navigate, browser-click, browser-type,
browser-eval` (the Start-menu action is `start`, not `start-app`); a step
with any other action fails with `UnknownAction`, which aborts the whole
run at that step whatever steps follow. -/
theorem c6_action_vocabulary :
    (∀ (wd : World) (cw : Option Window) (st : MacroStep),
        (runStep wd cw st).2 = .error (.unknownAction st.action) ↔
          st.action ∉ actionVocab) ∧
    (∀ (wd : World) (cw : Option Window) (pre : List MacroStep) (bad : MacroStep)
        (rest : List MacroStep) (t : List Event) (cw1 : Option Window),
        bad.action ∉ actionVocab →
        runMacroLoop wd cw pre = (t, .ok cw1) →
        runMacroLoop wd cw (pre ++ bad :: rest) =
          (t ++ delayEvents bad.args, .error (.unknownAction bad.action))) := by
  constructor
  · intro wd cw st
    constructor
    · intro h hmem
      exact dispatch_ne_unknown_of_mem wd cw st hmem h
    · intro hmem
      have := runStep_unknown wd cw st hmem
      rw [this]
  · intro wd cw pre
    induction pre generalizing cw with
    | nil =>
      intro bad rest t cw1 hmem hpre
      rw [runMacroLoop] at hpre
      obtain ⟨ht, hcw⟩ := Prod.mk.injEq .. ▸ hpre
      obtain rfl : cw = cw1 := Except.ok.inj hcw
      rw [List.nil_append, runMacroLoop_cons, runStep_unknown wd cw bad hmem]
      rw [← ht]
      rfl
    | cons s pre2 ih =>
      intro bad rest t cw1 hmem hpre
      rw [runMacroLoop_cons] at hpre
      rcases hstep : (runStep wd cw s).2 with e | cwm
      · rw [hstep] at hpre
        exact absurd (congrArg Prod.snd hpre) (by simp)
      · rw [hstep] at hpre
        have ht : (runStep wd cw s).1 ++ (runMacroLoop wd cwm pre2).1 = t :=
          congrArg Prod.fst hpre
        have hr : (runMacroLoop wd cwm pre2).2 = .ok cw1 := congrArg Prod.snd hpre
        rcases hmac : runMacroLoop wd cwm pre2 with ⟨t2, r2⟩
        rw [hmac] at ht hr
        simp only [] at ht hr
        rw [List.cons_append, runMacroLoop_cons, hstep]
        show ((runStep wd cw s).1 ++ (runMacroLoop wd cwm (pre2 ++ bad :: rest)).1,
            (runMacroLoop wd cwm (pre2 ++ bad :: rest)).2) = _
        rw [ih cwm bad rest t2 cw1 hmem (by rw [hmac, hr])]
        rw [← ht]
        simp [List.append_assoc]

/-- Witness for C6 (amended): a bogus action in mid-run aborts at that
step. -/
theorem c6_witness :
    runMacroLoop worldC2 none
        [{ action := "sleep", args := {} }, { action := "bogus", args := {} },
         { action := "sleep", args := {} }] =
      ([.sleptSecs 1], .error (.unknownAction "bogus")) ∧
    (runStep worldC2 none { action := "bogus", args := {} }).2 =
        .error (.unknownAction "bogus") := by
  constructor
  · exact c6_action_vocabulary.2 worldC2 none [{ action := "sleep", args := {} }]
      { action := "bogus", args := {} } [{ action := "sleep", args := {} }]
      [.sleptSecs 1] none (by decide) rfl
  · exact (c6_action_vocabulary.1 worldC2 none { action := "bogus", args := {} }).mpr
      (by decide)

theorem tryCandidates_first_ok :
    ∀ (cs1 : List SelPayload) (wd : World) (cw : Option Window) (args : Args)
      (sel : SelPayload) (cs2 : List SelPayload) (wp : Window × List Nat)
      (last : Option SelErr) (acc : List Event),
      (∀ s1 ∈ cs1, ∃ e, (resolveViaSelector wd cw args s1).2 = .error e) →
      (resolveViaSelector wd cw args sel).2 = .ok wp →
      (tryCandidates wd cw args (cs1 ++ sel :: cs2) last acc).2 = .ok wp := by
  intro cs1
  induction cs1 with
  | nil =>
    intro wd cw args sel cs2 wp last acc _ hgood
    rcases hr : resolveViaSelector wd cw args sel with ⟨ev, r⟩
    rw [hr] at hgood
    simp only [] at hgood
    rw [List.nil_append, tryCandidates, hr, hgood]
  | cons s1 rest ih =>
    intro wd cw args sel cs2 wp last acc hall hgood
    obtain ⟨e, he⟩ := hall s1 (List.mem_cons_self s1 rest)
    rcases hr1 : resolveViaSelector wd cw args s1 with ⟨ev1, r1⟩
    rw [hr1] at he
    simp only [] at he
    rw [List.cons_append, tryCandidates, hr1, he]
    exact ih wd cw args sel cs2 wp (some e) (acc ++ ev1)
      (fun x hx => hall x (List.mem_cons_of_mem _ hx)) hgood

/-- C2 (counterexample): a step carrying both a single `selector` and
`selector_candidates` resolves via the single selector FIRST — here the
single selector fails and the whole resolution fails, even though the first
entry of `selector_candidates` resolves; the claim's precedence
(candidates before the single selector) would have succeeded. -/
theorem c2_counterexample :
    (_resolve_target worldC2 none argsC2).2 =
      .error (.selErr (.resolveErr (.unresolvable (some .notFound)))) ∧
    (resolveViaSelector worldC2 none argsC2 selGood).2 = .ok (winC2, [0]) := by
  exact ⟨rfl, rfl⟩

/-- C2 (amended): target resolution for click/type steps follows the
precedence — a truthy single `selector` first (its failure is NOT retried
against `selector_candidates`); else `selector_candidates` in order with
the first resolving candidate winning; else classic matching against
`current_window`, failing with `NoActiveWindow` when no window has ever
been focused.  A click step with coordinates and no truthy selector key
clicks the raw coordinates directly, bypassing classic matching entirely;
a click step whose selector resolution fails falls back to its recorded
coordinates when both are present. -/
theorem c2_resolution_precedence :
    (∀ (wd : World) (cw : Option Window) (args : Args) (sel : SelPayload),
        args.selector = some sel →
        _resolve_target wd cw args =
          ((resolveViaSelector wd cw args sel).1,
           (resolveViaSelector wd cw args sel).2.mapError .selErr)) ∧
    (∀ (wd : World) (cw : Option Window) (args : Args) (cs1 : List SelPayload)
        (sel : SelPayload) (cs2 : List SelPayload) (wp : Window × List Nat),
        args.selector = none →
        args.selector_candidates = some (cs1 ++ sel :: cs2) →
        (∀ s1 ∈ cs1, ∃ e, (resolveViaSelector wd cw args s1).2 = .error e) →
        (resolveViaSelector wd cw args sel).2 = .ok wp →
        (_resolve_target wd cw args).2 = .ok wp) ∧
    (∀ (wd : World) (cw : Option Window) (args : Args),
        args.selector = none → args.selector_candidates.getD [] = [] →
        _resolve_target wd cw args = classicResolve wd cw args) ∧
    (∀ (wd : World) (args : Args),
        args.selector = none → args.selector_candidates.getD [] = [] →
        (_resolve_target wd none args).2 = .error .noActiveWindow) ∧
    (∀ (wd : World) (cw : Option Window) (args : Args) (fx fy : Int),
        args.selector = none → args.selector_candidates.getD [] = [] →
        args.x = some fx → args.y = some fy →
        runClick wd cw args = ([.clickedCoords fx fy], .ok cw)) ∧
    (∀ (wd : World) (cw : Option Window) (args : Args) (fx fy : Int) (e : MacroError),
        (args.selector_candidates.getD [] ≠ [] ∨ args.selector.isSome) →
        args.x = some fx → args.y = some fy →
        (_resolve_target wd cw args).2 = .error e →
        runClick wd cw args =
          ((_resolve_target wd cw args).1 ++ [.clickedCoords fx fy], .ok cw)) := by
  refine ⟨?_, ?_, ?_, ?_, ?_, ?_⟩
  · intro wd cw args sel h
    rw [_resolve_target, h]
  · intro wd cw args cs1 sel cs2 wp hsel hcand hall hgood
    rw [_resolve_target, hsel, hcand]
    rcases cs1 with _ | ⟨c0, cs1t⟩
    · rw [List.nil_append]
      exact tryCandidates_first_ok [] wd cw args sel cs2 wp none [] hall hgood
    · rw [List.cons_append]
      exact tryCandidates_first_ok (c0 :: cs1t) wd cw args sel cs2 wp none [] hall hgood
  · intro wd cw args hsel hcand
    rw [_resolve_target, hsel]
    rcases hc : args.selector_candidates with _ | cs
    · rfl
    · rw [hc] at hcand
      simp only [Option.getD_some] at hcand
      rw [hcand]
  · intro wd args hsel hcand
    have hclassic : _resolve_target wd none args = classicResolve wd none args := by
      rw [_resolve_target, hsel]
      rcases hc : args.selector_candidates with _ | cs
      · rfl
      · rw [hc] at hcand
        simp only [Option.getD_some] at hcand
        rw [hcand]
    rw [hclassic]
    rfl
  · intro wd cw args fx fy hsel hcand hx hy
    rw [runClick]
    simp [hx, hy, hsel, hcand]
  · intro wd cw args fx fy e hhas hx hy herr
    rw [runClick]
    simp only [hx, hy]
    rw [if_pos hhas]
    rcases hr : _resolve_target wd cw args with ⟨ev, r⟩
    rw [hr] at herr
    simp only [] at herr
    rw [herr]

/-- Witness for C2 (amended): in `worldC2`, candidates-then-classic
precedence at concrete inputs. -/
theorem c2_witness :
    (_resolve_target worldC2 none { selector_candidates := some [selBad, selGood] }).2 =
      .ok (winC2, [0]) ∧
    (_resolve_target worldC2 none { name := some "OK" }).2 = .error .noActiveWindow ∧
    runClick worldC2 none { x := some 11, y := some 22 } =
      ([.clickedCoords 11 22], .ok none) := by
  refine ⟨?_, ?_, ?_⟩
  · exact c2_resolution_precedence.2.1 worldC2 none
      { selector_candidates := some [selBad, selGood] } [selBad] selGood [] (winC2, [0])
      rfl rfl
      (fun s1 hs1 => by
        simp only [List.mem_cons, List.not_mem_nil, or_false] at hs1
        rw [hs1]
        exact ⟨.resolveErr (.unresolvable (some .notFound)), rfl⟩)
      rfl
  · exact c2_resolution_precedence.2.2.2.1 worldC2 { name := some "OK" } rfl rfl
  · exact c2_resolution_precedence.2.2.2.2.1 worldC2 none { x := some 11, y := some 22 }
      11 22 rfl rfl rfl rfl

theorem descsAux_mem_child :
    ∀ (l : List Element) (k j : Nat) (c : Element), l.get? j = some c →
      ([k + j], c) ∈ descsAux k l := by
  intro l
  induction l with
  | nil => intro k j c h; simp at h
  | cons c0 rest ih =>
    intro k j c h
    rcases j with _ | j'
    · rw [List.get?_cons_zero] at h
      obtain rfl : c0 = c := Option.some.inj h
      rw [descsAux, Nat.add_zero]
      exact List.mem_cons_self _ _
    · rw [List.get?_cons_succ] at h
      have hmem := ih (k + 1) j' c h
      rw [descsAux]
      have heq : k + (j' + 1) = (k + 1) + j' := by omega
      rw [heq]
      exact List.mem_cons_of_mem _ (List.mem_append_right _ hmem)

theorem descsAux_mem_deep :
    ∀ (l : List Element) (k j : Nat) (c : Element) (q : List Nat) (x : Element),
      l.get? j = some c → (q, x) ∈ c.descendants →
      ((k + j) :: q, x) ∈ descsAux k l := by
  intro l
  induction l with
  | nil => intro k j c q x h _; simp at h
  | cons c0 rest ih =>
    intro k j c q x h hd
    rcases j with _ | j'
    · rw [List.get?_cons_zero] at h
      obtain rfl : c0 = c := Option.some.inj h
      rw [descsAux, Nat.add_zero]
      refine List.mem_cons_of_mem _ (List.mem_append_left _ ?_)
      exact List.mem_map.mpr ⟨(q, x), hd, rfl⟩
    · rw [List.get?_cons_succ] at h
      have hmem := ih (k + 1) j' c q x h hd
      rw [descsAux]
      have heq : k + (j' + 1) = (k + 1) + j' := by omega
      rw [heq]
      exact List.mem_cons_of_mem _ (List.mem_append_right _ hmem)

theorem mem_descendants_of_subAt :
    ∀ (pos : List Nat) (e x : Element), subAt e pos = some x → pos ≠ [] →
      (pos, x) ∈ e.descendants := by
  intro pos
  induction pos with
  | nil => intro e x _ hne; exact absurd rfl hne
  | cons i rest ih =>
    intro e x h _
    rcases hg : e.children.get? i with _ | c
    · rw [subAt, hg] at h
      exact absurd h (by simp)
    · rw [subAt, hg] at h
      have h2 : subAt c rest = some x := h
      rcases e with ⟨a, cs⟩
      rcases rest with _ | ⟨r0, rrest⟩
      · obtain rfl : c = x := Option.some.inj h2
        rw [Element.descendants]
        have hmem := descsAux_mem_child cs 0 i c (by simpa [Element.children] using hg)
        simpa using hmem
      · have hdx : (r0 :: rrest, x) ∈ c.descendants := ih c x h2 (by simp)
        rw [Element.descendants]
        have hmem := descsAux_mem_deep cs 0 i c (r0 :: rrest) x
          (by simpa [Element.children] using hg) hdx
        simpa using hmem

theorem filter_singleton_mem {α : Type} (l : List α) (f : α → Bool) (x y : α)
    (h : l.filter f = [y]) (hx : x ∈ l) (hfx : f x = true) : x = y := by
  have : x ∈ l.filter f := List.mem_filter.mpr ⟨hx, hfx⟩
  rw [h] at this
  simpa using this

theorem findDescUnique_ok (e : Element) (p : Attrs → Bool) (pe : List Nat × Element)
    (h : findDescUnique e p = .ok pe) :
    pe ∈ e.descendants ∧ p pe.2.attrs = true ∧
      ∀ q x, (q, x) ∈ e.descendants → p x.attrs = true → (q, x) = pe := by
  rcases hm : e.descendants.filter (fun z => p z.2.attrs) with _ | ⟨y, ys⟩
  · rw [findDescUnique, hm] at h
    exact absurd h (by simp)
  · rcases ys with _ | ⟨y2, ys2⟩
    · rw [findDescUnique, hm] at h
      obtain rfl : y = pe := Except.ok.inj h
      have hself : y ∈ e.descendants.filter (fun z => p z.2.attrs) := by
        rw [hm]; exact List.mem_cons_self _ _
      obtain ⟨hmem, hp⟩ := List.mem_filter.mp hself
      exact ⟨hmem, hp, fun q x hqx hpx => filter_singleton_mem _ _ (q, x) y hm hqx hpx⟩
    · rw [findDescUnique, hm] at h
      exact absurd h (by simp)

theorem matchStep_stepOf_self (c : Element) (i : Nat) :
    matchStep (stepOf c i) c.attrs = true := by
  simp [matchStep, stepOf]

theorem mem_enumFrom_of_get? {α : Type} :
    ∀ (l : List α) (n j : Nat) (c : α), l.get? j = some c → (n + j, c) ∈ l.enumFrom n := by
  intro l
  induction l with
  | nil => intro n j c h; simp at h
  | cons c0 rest ih =>
    intro n j c h
    rcases j with _ | j'
    · rw [List.get?_cons_zero] at h
      obtain rfl : c0 = c := Option.some.inj h
      rw [List.enumFrom, Nat.add_zero]
      exact List.mem_cons_self _ _
    · rw [List.get?_cons_succ] at h
      have hmem := ih (n + 1) j' c h
      rw [List.enumFrom]
      have heq : n + (j' + 1) = (n + 1) + j' := by omega
      rw [heq]
      exact List.mem_cons_of_mem _ hmem

theorem mem_enum_of_get? {α : Type} (l : List α) (j : Nat) (c : α)
    (h : l.get? j = some c) : (j, c) ∈ l.enum := by
  have := mem_enumFrom_of_get? l 0 j c h
  simpa [List.enum] using this

theorem tryTarget_addClassHint (w : Element) (cn : String) (t : Target) :
    tryTarget w (addClassHint cn t) = tryTarget w t := by
  unfold addClassHint
  split <;> rfl

theorem resolvePath_unique_hops :
    ∀ (pos : List Nat) (cur : Element) (curPos : List Nat) (steps : List SelectorStep),
      pathStepsAux cur pos = some steps →
      uniqueHopsB cur pos = true →
      resolvePathAux cur curPos steps = .ok (curPos ++ pos) := by
  intro pos
  induction pos with
  | nil =>
    intro cur curPos steps hsteps _
    obtain rfl : ([] : List SelectorStep) = steps := Option.some.inj hsteps
    rw [resolvePathAux, List.append_nil]
  | cons i rest ih =>
    intro cur curPos steps hsteps hu
    rcases hg : cur.children.get? i with _ | c
    · rw [pathStepsAux, hg] at hsteps
      exact absurd hsteps (by simp)
    · rw [pathStepsAux, hg] at hsteps
      have hsteps2 : (pathStepsAux c rest).map (fun l => stepOf c i :: l) = some steps := hsteps
      obtain ⟨ss, hss, hsteps3⟩ := Option.map_eq_some'.mp hsteps2
      obtain rfl : stepOf c i :: ss = steps := hsteps3
      rw [uniqueHopsB, hg] at hu
      have hu2 : (((cur.children.enum.filter
          (fun ic => matchStep (stepOf c i) ic.2.attrs)).length == 1) &&
          uniqueHopsB c rest) = true := hu
      rw [Bool.and_eq_true] at hu2
      obtain ⟨hl, hrec⟩ := hu2
      have hlen : (cur.children.enum.filter
          (fun ic => matchStep (stepOf c i) ic.2.attrs)).length = 1 := by
        simpa using hl
      have hcmem : (i, c) ∈ cur.children.enum := mem_enum_of_get? _ _ _ hg
      have hcfil : (i, c) ∈ cur.children.enum.filter
          (fun ic => matchStep (stepOf c i) ic.2.attrs) :=
        List.mem_filter.mpr ⟨hcmem, matchStep_stepOf_self c i⟩
      obtain ⟨y, hy⟩ := List.length_eq_one.mp hlen
      have hyc : (i, c) = y := by
        rw [hy] at hcfil
        simpa using hcfil
      obtain rfl : (i, c) = y := hyc
      have happ : (curPos ++ [i]) ++ rest = curPos ++ i :: rest := by simp
      have hchild_mem : ([i], c) ∈ cur.descendants := by
        rcases cur with ⟨a0, cs0⟩
        rw [Element.descendants]
        have hmm := descsAux_mem_child cs0 0 i c (by simpa [Element.children] using hg)
        simpa using hmm
      rcases hfl : fastLookup cur (stepOf c i) with _ | ⟨p, c2⟩
      · rw [resolvePathAux, hfl, scanStep, hy]
        show resolvePathAux
            (match (stepOf c i).index with
              | some i2 => ([(i, c)] : List (Nat × Element)).getD (min i2 0) (i, c)
              | none => (i, c)).2
            (curPos ++ [(match (stepOf c i).index with
              | some i2 => ([(i, c)] : List (Nat × Element)).getD (min i2 0) (i, c)
              | none => (i, c)).1]) ss = .ok (curPos ++ i :: rest)
        have hpick : (match (stepOf c i).index with
            | some i2 => ([(i, c)] : List (Nat × Element)).getD (min i2 0) (i, c)
            | none => (i, c)) = (i, c) := by
          show ([(i, c)] : List (Nat × Element)).getD (min i 0) (i, c) = (i, c)
          rw [Nat.min_zero]
          rfl
        rw [hpick]
        rw [ih c (curPos ++ [i]) ss hss hrec, happ]
      · have hfl0 : fastLookup cur (stepOf c i) = some (p, c2) := hfl
        by_cases hA : (stepOf c i).auto_id ≠ "" ∧ (stepOf c i).control_type ≠ ""
        · rw [fastLookup, if_pos hA] at hfl
          rcases hfd : findDescUnique cur
              (fun a => a.auto_id == (stepOf c i).auto_id &&
                a.control_type == (stepOf c i).control_type) with e | pe
          · rw [hfd] at hfl
            exact absurd hfl (by simp)
          · rw [hfd] at hfl
            have hpe : pe = (p, c2) := by simpa using hfl
            obtain ⟨_, _, huq⟩ := findDescUnique_ok cur _ pe hfd
            have hpred : ((c.attrs.auto_id == (stepOf c i).auto_id) &&
                (c.attrs.control_type == (stepOf c i).control_type)) = true := by
              simp [stepOf]
            have heq := huq [i] c hchild_mem hpred
            rw [hpe] at heq
            have hp1 : [i] = p := congrArg Prod.fst heq
            have hp2 : c = c2 := congrArg Prod.snd heq
            subst hp1
            subst hp2
            rw [resolvePathAux, hfl0]
            show resolvePathAux c (curPos ++ [i]) ss = .ok (curPos ++ i :: rest)
            rw [ih c (curPos ++ [i]) ss hss hrec, happ]
        · by_cases hB : (stepOf c i).name ≠ "" ∧ (stepOf c i).control_type ≠ ""
          · rw [fastLookup, if_neg hA, if_pos hB] at hfl
            rcases hfd : findDescUnique cur
                (fun a => a.name == (stepOf c i).name &&
                  a.control_type == (stepOf c i).control_type) with e | pe
            · rw [hfd] at hfl
              exact absurd hfl (by simp)
            · rw [hfd] at hfl
              have hpe : pe = (p, c2) := by simpa using hfl
              obtain ⟨_, _, huq⟩ := findDescUnique_ok cur _ pe hfd
              have hpred : ((c.attrs.name == (stepOf c i).name) &&
                  (c.attrs.control_type == (stepOf c i).control_type)) = true := by
                simp [stepOf]
              have heq := huq [i] c hchild_mem hpred
              rw [hpe] at heq
              have hp1 : [i] = p := congrArg Prod.fst heq
              have hp2 : c = c2 := congrArg Prod.snd heq
              subst hp1
              subst hp2
              rw [resolvePathAux, hfl0]
              show resolvePathAux c (curPos ++ [i]) ss = .ok (curPos ++ i :: rest)
              rw [ih c (curPos ++ [i]) ss hss hrec, happ]
          · rw [fastLookup, if_neg hA, if_neg hB] at hfl
            exact absurd hfl (by simp)

theorem tryTarget_attr_auto (root : Element) (a ct : String) (pos : List Nat) (elem : Element)
    (hmem : (pos, elem) ∈ root.descendants)
    (ha : a ≠ "") (hct : ct ≠ "")
    (hea : elem.attrs.auto_id = a) (hect : elem.attrs.control_type = ct) :
    tryTarget root { auto_id := a, control_type := ct } = .ok pos ∨
    ∃ e, tryTarget root { auto_id := a, control_type := ct } = .failed e := by
  unfold tryTarget
  dsimp only
  rw [if_pos ⟨ha, hct⟩]
  rcases hfd : findDescUnique root (fun z => z.auto_id == a && z.control_type == ct) with e | pe
  · exact Or.inr ⟨e, rfl⟩
  · obtain ⟨_, _, huq⟩ := findDescUnique_ok root _ pe hfd
    have hpred : (elem.attrs.auto_id == a && elem.attrs.control_type == ct) = true := by
      simp [hea, hect]
    have heq := huq pos elem hmem hpred
    rw [← heq]
    exact Or.inl rfl

theorem tryTarget_attr_name (root : Element) (n ct : String) (pos : List Nat) (elem : Element)
    (hmem : (pos, elem) ∈ root.descendants)
    (hn : n ≠ "") (hct : ct ≠ "")
    (hen : elem.attrs.name = n) (hect : elem.attrs.control_type = ct) :
    tryTarget root { name := n, control_type := ct } = .ok pos ∨
    ∃ e, tryTarget root { name := n, control_type := ct } = .failed e := by
  unfold tryTarget
  dsimp only
  rw [if_neg (by simp), if_pos ⟨hn, hct⟩]
  rcases hfd : findDescUnique root (fun z => z.name == n && z.control_type == ct) with e | pe
  · exact Or.inr ⟨e, rfl⟩
  · obtain ⟨_, _, huq⟩ := findDescUnique_ok root _ pe hfd
    have hpred : (elem.attrs.name == n && elem.attrs.control_type == ct) = true := by
      simp [hen, hect]
    have heq := huq pos elem hmem hpred
    rw [← heq]
    exact Or.inl rfl

theorem tryTarget_path_target (root : Element) (s0 : SelectorStep) (ss : List SelectorStep) :
    tryTarget root { path := some (s0 :: ss) } =
      match resolve_selector_path root (s0 :: ss) with
      | .ok p => CandResult.ok p
      | .error e => CandResult.failed e := by
  unfold tryTarget
  dsimp only
  rw [if_neg (by simp), if_neg (by simp)]

/-- C1 (amended): for a control at a non-root position reachable within the
255-hop bound, resolving the Builder's selector against the same unchanged
window returns exactly the original control's identity, provided every hop
of the recorded structural path matches exactly one sibling
(`uniqueHopsB`); without that proviso the attribute-candidate and
sibling-index disambiguation can land on a different control (see the
counterexample). -/
theorem c1_roundtrip_amended (root : Element) (pos : List Nat) (win : WinPayload)
    (sp : SelPayload)
    (hne : pos ≠ []) (hlen : pos.length ≤ 255)
    (huniq : uniqueHopsB root pos = true)
    (hbuild : buildPayload root win pos = some sp) :
    resolve_selector root sp = .ok pos := by
  rcases hct0 : candidate_targets_for_element root pos with _ | ts
  · rw [buildPayload, hct0] at hbuild
    exact absurd hbuild (by simp)
  · rw [buildPayload, hct0] at hbuild
    have hsp : { window := win, targets := .list ts } = sp := by
      simpa using hbuild
    obtain rfl : ({ window := win, targets := .list ts } : SelPayload) = sp := hsp
    rcases hsub : subAt root pos with _ | elem
    · rw [candidate_targets_for_element, hsub] at hct0
      exact absurd hct0 (by simp)
    · rw [candidate_targets_for_element, hsub] at hct0
      rcases hpath : selector_path_from_element root pos with _ | steps
      · rw [hpath] at hct0
        exact absurd hct0 (by simp)
      · rw [hpath] at hct0
        have hts : ((if elem.attrs.auto_id ≠ "" ∧ elem.attrs.control_type ≠ "" then
              [({ auto_id := elem.attrs.auto_id,
                  control_type := elem.attrs.control_type } : Target)] else []) ++
            (if elem.attrs.name ≠ "" ∧ elem.attrs.control_type ≠ "" then
              [({ name := elem.attrs.name,
                  control_type := elem.attrs.control_type } : Target)] else []) ++
            [({ path := some steps } : Target)]).map (addClassHint elem.attrs.class_name)
              = ts := Option.some.inj hct0
        have hsteps : pathStepsAux root pos = some steps := by
          rw [selector_path_from_element, if_pos hlen] at hpath
          exact hpath
        have hmem : (pos, elem) ∈ root.descendants :=
          mem_descendants_of_subAt pos root elem hsub hne
        have hpres : resolve_selector_path root steps = .ok pos := by
          have h0 := resolvePath_unique_hops pos root [] steps hsteps huniq
          rw [resolve_selector_path, h0, List.nil_append]
        have hstepsne : ∃ s0 ss, steps = s0 :: ss := by
          rcases pos with _ | ⟨i, rest⟩
          · exact absurd rfl hne
          · rcases hg : root.children.get? i with _ | c
            · rw [pathStepsAux, hg] at hsteps
              exact absurd hsteps (by simp)
            · rw [pathStepsAux, hg] at hsteps
              have hsteps2 : (pathStepsAux c rest).map (fun l => stepOf c i :: l) =
                  some steps := hsteps
              obtain ⟨ss, _, hconseq⟩ := Option.map_eq_some'.mp hsteps2
              exact ⟨stepOf c i, ss, hconseq.symm⟩
        obtain ⟨s0, ss, rfl⟩ := hstepsne
        have hptry : tryTarget root ({ path := some (s0 :: ss) } : Target) = .ok pos := by
          rw [tryTarget_path_target, hpres]
        subst hts
        set cn := elem.attrs.class_name with hcn
        by_cases h1 : elem.attrs.auto_id ≠ "" ∧ elem.attrs.control_type ≠ ""
        · by_cases h2 : elem.attrs.name ≠ "" ∧ elem.attrs.control_type ≠ ""
          · have hts2 : ((if elem.attrs.auto_id ≠ "" ∧ elem.attrs.control_type ≠ "" then
                  [({ auto_id := elem.attrs.auto_id,
                      control_type := elem.attrs.control_type } : Target)] else []) ++
                (if elem.attrs.name ≠ "" ∧ elem.attrs.control_type ≠ "" then
                  [({ name := elem.attrs.name,
                      control_type := elem.attrs.control_type } : Target)] else []) ++
                [({ path := some (s0 :: ss) } : Target)]).map (addClassHint cn) =
                [addClassHint cn ({ auto_id := elem.attrs.auto_id, control_type := elem.attrs.control_type } : Target),
                 addClassHint cn ({ name := elem.attrs.name, control_type := elem.attrs.control_type } : Target),
                 addClassHint cn ({ path := some (s0 :: ss) } : Target)] := by
              simp [h1, h2]
            rw [hts2]
            show tryTargets root _ none = .ok pos
            rcases tryTarget_attr_auto root elem.attrs.auto_id elem.attrs.control_type pos elem
                hmem h1.1 h1.2 rfl rfl with hok | ⟨e, hfail⟩
            · simp only [tryTargets, tryTarget_addClassHint, hok]
            · rcases tryTarget_attr_name root elem.attrs.name elem.attrs.control_type pos elem
                  hmem h2.1 h2.2 rfl rfl with hok2 | ⟨e2, hfail2⟩
              · simp only [tryTargets, tryTarget_addClassHint, hfail, hok2]
              · simp only [tryTargets, tryTarget_addClassHint, hfail, hfail2, hptry]
          · have hts2 : ((if elem.attrs.auto_id ≠ "" ∧ elem.attrs.control_type ≠ "" then
                  [({ auto_id := elem.attrs.auto_id,
                      control_type := elem.attrs.control_type } : Target)] else []) ++
                (if elem.attrs.name ≠ "" ∧ elem.attrs.control_type ≠ "" then
                  [({ name := elem.attrs.name,
                      control_type := elem.attrs.control_type } : Target)] else []) ++
                [({ path := some (s0 :: ss) } : Target)]).map (addClassHint cn) =
                [addClassHint cn ({ auto_id := elem.attrs.auto_id, control_type := elem.attrs.control_type } : Target),
                 addClassHint cn ({ path := some (s0 :: ss) } : Target)] := by
              have hn0 : elem.attrs.name = "" := by
                rcases not_and_or.mp h2 with h | h
                · exact not_not.mp h
                · exact absurd h1.2 h
              simp [h1, hn0]
            rw [hts2]
            show tryTargets root _ none = .ok pos
            rcases tryTarget_attr_auto root elem.attrs.auto_id elem.attrs.control_type pos elem
                hmem h1.1 h1.2 rfl rfl with hok | ⟨e, hfail⟩
            · simp only [tryTargets, tryTarget_addClassHint, hok]
            · simp only [tryTargets, tryTarget_addClassHint, hfail, hptry]
        · by_cases h2 : elem.attrs.name ≠ "" ∧ elem.attrs.control_type ≠ ""
          · have hts2 : ((if elem.attrs.auto_id ≠ "" ∧ elem.attrs.control_type ≠ "" then
                  [({ auto_id := elem.attrs.auto_id,
                      control_type := elem.attrs.control_type } : Target)] else []) ++
                (if elem.attrs.name ≠ "" ∧ elem.attrs.control_type ≠ "" then
                  [({ name := elem.attrs.name,
                      control_type := elem.attrs.control_type } : Target)] else []) ++
                [({ path := some (s0 :: ss) } : Target)]).map (addClassHint cn) =
                [addClassHint cn ({ name := elem.attrs.name, control_type := elem.attrs.control_type } : Target),
                 addClassHint cn ({ path := some (s0 :: ss) } : Target)] := by
              have ha0 : elem.attrs.auto_id = "" := by
                rcases not_and_or.mp h1 with h | h
                · exact not_not.mp h
                · exact absurd h2.2 h
              simp [h2, ha0]
            rw [hts2]
            show tryTargets root _ none = .ok pos
            rcases tryTarget_attr_name root elem.attrs.name elem.attrs.control_type pos elem
                hmem h2.1 h2.2 rfl rfl with hok2 | ⟨e2, hfail2⟩
            · simp only [tryTargets, tryTarget_addClassHint, hok2]
            · simp only [tryTargets, tryTarget_addClassHint, hfail2, hptry]
          · have hts2 : ((if elem.attrs.auto_id ≠ "" ∧ elem.attrs.control_type ≠ "" then
                  [({ auto_id := elem.attrs.auto_id,
                      control_type := elem.attrs.control_type } : Target)] else []) ++
                (if elem.attrs.name ≠ "" ∧ elem.attrs.control_type ≠ "" then
                  [({ name := elem.attrs.name,
                      control_type := elem.attrs.control_type } : Target)] else []) ++
                [({ path := some (s0 :: ss) } : Target)]).map (addClassHint cn) =
                [addClassHint cn ({ path := some (s0 :: ss) } : Target)] := by
              simp [h1, h2]
            rw [hts2]
            show tryTargets root _ none = .ok pos
            simp only [tryTargets, tryTarget_addClassHint, hptry]

/-- Witness for C1 (amended): the fully-attributed button of `exRound`
round-trips to its own position. -/
theorem c1_witness :
    resolve_selector exRound
        ((buildPayload exRound {} [0, 0]).getD { targets := .missing }) = .ok [0, 0] := by
  exact c1_roundtrip_amended exRound [0, 0] {}
    ((buildPayload exRound {} [0, 0]).getD { targets := .missing })
    (by decide) (by decide) (by decide) (by decide)

end HFW
